import Mathlib

/-!
Verification development for the prem-picker repository: a shallow embedding of
the pick validation and gameweek-results elimination engine, together with
theorems settling the frozen claims about it.

Conventions of the embedding:
* identities (emails, usernames, team short names) are abstracted to `Nat`;
* timestamps are `Int` and "now" is passed explicitly;
* the relational store is a record of lists; an SQL `UPDATE ... WHERE k = v`
  is a `List.map` that rewrites every row matching the predicate;
* the settings table is abstracted to the four values the engine reads
  (current season, current gameweek, the gameweek override and the deadline
  bypass flag).
-/

namespace PremPicker

/-- Fixture status, from the `pl_fixtures.status` column
(`scheduled`, `in_play`, `postponed`, `finished`). -/
inductive FixtureStatus
  | scheduled
  | inPlay
  | postponed
  | finished
deriving DecidableEq, Repr

/-- Pick outcome, from the nullable `picks.result` column (`win`, `draw`, `loss`);
`Option PickResult` models the nullable column. -/
inductive PickResult
  | win
  | draw
  | loss
deriving DecidableEq, Repr

/-- Game player status, from `game_players.status`
(`alive`, `eliminated`, `winner`, `drawn`). -/
inductive PlayerStatus
  | alive
  | eliminated
  | winner
  | drawn
deriving DecidableEq, Repr

/-- Game status, from `games.status` (`open`, `active`, `completed`). -/
inductive GameStatus
  | openStatus
  | active
  | completed
deriving DecidableEq, Repr

/-- A row of `pl_teams`: team id, season, and the short name used by the
import-pick lookup (abstracted to `Nat`). -/
@[ext] structure Team where
  teamId : Nat
  season : Nat
  shortName : Nat
deriving DecidableEq, Repr

/-- A row of `pl_fixtures`: one scheduled match. `matchDate` models the
nullable kickoff timestamp. Scores are meaningful once the fixture is
finished, matching how the source only reads them under `status = 'finished'`. -/
@[ext] structure Fixture where
  season : Nat
  gameweek : Nat
  homeTeamId : Nat
  awayTeamId : Nat
  homeScore : Nat
  awayScore : Nat
  status : FixtureStatus
  matchDate : Option Int
deriving DecidableEq, Repr

/-- A row of `games`: one contest. -/
@[ext] structure Game where
  gameId : Nat
  season : Nat
  adminEmail : Nat
  startGameweek : Nat
  status : GameStatus
  winnerPlayerId : Option Nat
  isDraw : Bool
deriving DecidableEq, Repr

/-- A row of `game_players`: one membership seat. -/
@[ext] structure GamePlayer where
  playerId : Nat
  gameId : Nat
  userEmail : Nat
  username : Nat
  status : PlayerStatus
  eliminatedGameweek : Option Nat
  eliminatedPickId : Option Nat
deriving DecidableEq, Repr

/-- A row of `picks`: one nomination. -/
@[ext] structure Pick where
  pickId : Nat
  gameId : Nat
  gamePlayerId : Nat
  gameweek : Nat
  plTeamId : Nat
  result : Option PickResult
deriving DecidableEq, Repr

/-- The transactional store plus the settings the engine reads.
`currentSeason` and `currentGameweek` embed `getCurrentSeason` /
`getCurrentGameweek` (src/helpers/settings.js) with their defaults applied.
`gameweekOverride` and `deadlineBypass` are modelled from the spec: the
accessor helpers `getGameweekOverride` and `isDeadlineOverridden` are called
throughout the routes but their definitions are not present under src/; per
the spec they expose a round override (if set) and a deadline-bypass flag. -/
@[ext] structure DB where
  teams : List Team
  fixtures : List Fixture
  games : List Game
  players : List GamePlayer
  picks : List Pick
  currentSeason : Nat
  currentGameweek : Nat
  gameweekOverride : Option Nat
  deadlineBypass : Bool
deriving DecidableEq, Repr

/-! ## Settings and round resolution -/

/-- Minimum of a list of `Int`s, `none` on the empty list (SQL `MIN` over no rows). -/
def minInt : List Int → Option Int
  | [] => none
  | d :: ds =>
    match minInt ds with
    | none => some d
    | some m => some (min d m)

/-- Minimum of a list of `Nat`s, `none` on the empty list (SQL `MIN` over no rows). -/
def minNat : List Nat → Option Nat
  | [] => none
  | d :: ds =>
    match minNat ds with
    | none => some d
    | some m => some (min d m)

/-- Maximum of a list of `Nat`s, `none` on the empty list (SQL `MAX` over no rows). -/
def maxNat : List Nat → Option Nat
  | [] => none
  | d :: ds =>
    match maxNat ds with
    | none => some d
    | some m => some (max d m)

/-- `autoDetectGameweek(pool, season)` from src/helpers/settings.js: the
earliest gameweek of the season with an unfinished fixture; if all fixtures
are finished, the last gameweek; if the season has no fixtures, `none`. -/
def autoDetectGameweek (db : DB) (season : Nat) : Option Nat :=
  match minNat ((db.fixtures.filter
      (fun f => f.season = season && f.status != FixtureStatus.finished)).map
      (fun f => f.gameweek)) with
  | some m => some m
  | none =>
    if (db.fixtures.filter (fun f => f.season = season)).length > 0 then
      maxNat ((db.fixtures.filter (fun f => f.season = season)).map (fun f => f.gameweek))
    else
      none

/-- The gameweek used by `POST /api/games/:id/picks` (src/routes/picks.js):
the override if set, else the auto-detected gameweek, else the stored
`current_gameweek` value. -/
def resolveRoundForPick (db : DB) : Nat :=
  match db.gameweekOverride with
  | some gw => gw
  | none =>
    match autoDetectGameweek db db.currentSeason with
    | some d => d
    | none => db.currentGameweek

/-- The gameweek reported by `GET /api/games/:id/history` (src/routes/games.js):
the override if set, else the stored value overwritten by the auto-detected
gameweek when detection succeeds. -/
def resolveRoundHistory (db : DB) : Nat :=
  match db.gameweekOverride with
  | some gw => gw
  | none =>
    let stored := db.currentGameweek
    match autoDetectGameweek db db.currentSeason with
    | some d => d
    | none => stored

/-- Modelled from the spec: the round-resolution policy of section 4.1 —
(a) an explicit override if set, else (b) the earliest round in the season
with any unfinished fixture, else (c) the last round if the season's fixtures
are all finished, else (d) the stored fallback value. Written from the spec's
words, to be compared with the code-derived resolutions. -/
def resolveRoundSpec (db : DB) : Nat :=
  match db.gameweekOverride with
  | some gw => gw
  | none =>
    match minNat ((db.fixtures.filter
        (fun f => f.season = db.currentSeason && f.status != FixtureStatus.finished)).map
        (fun f => f.gameweek)) with
    | some earliest => earliest
    | none =>
      if (db.fixtures.filter (fun f => f.season = db.currentSeason)).length > 0 then
        (maxNat ((db.fixtures.filter (fun f => f.season = db.currentSeason)).map
          (fun f => f.gameweek))).getD db.currentGameweek
      else
        db.currentGameweek

/-- The gameweek used by `runResultsCheck` (the cron tick) to end its trailing
processing window: it reads only the stored `current_gameweek` setting. -/
def pollerCurrentRound (db : DB) : Nat :=
  db.currentGameweek

/-- The trailing window of gameweeks processed by `runResultsCheck`:
`gw` from `max 1 (currentGw - 2)` up to and including `currentGw`. -/
def pollerWindow (db : DB) : List Nat :=
  List.range' (max 1 (db.currentGameweek - 2))
    (db.currentGameweek + 1 - max 1 (db.currentGameweek - 2))

/-! ## Deadlines -/

/-- The deadline of a gameweek: `MIN(match_date)` over the season's fixtures of
that gameweek whose `match_date` is not null (src/routes/picks.js). -/
def roundDeadline (db : DB) (gw : Nat) : Option Int :=
  minInt ((db.fixtures.filter
    (fun f => f.gameweek = gw && f.season = db.currentSeason && f.matchDate.isSome)).filterMap
    (fun f => f.matchDate))

/-- Whether the deadline of gameweek `gw` counts as passed at time `now`:
if the deadline bypass is on this is always `false`; otherwise it is `true`
exactly when a deadline exists and is before `now`
(`deadlineOverride ? false : (deadline ? new Date(deadline) < new Date() : false)`). -/
def deadlinePassed (db : DB) (gw : Nat) (now : Int) : Bool :=
  if db.deadlineBypass then false
  else
    match roundDeadline db gw with
    | some d => d < now
    | none => false

/-! ## The results-processor core

Both `POST /api/games/:id/process-results` (src/routes/picks.js) and the
per-game body of `processGameResults` (the cron module) run the same
elimination algorithm inside one transaction. It is embedded once, as a list
of primitive row writes applied in source order. -/

/-- Outcome of a finished fixture for its two sides: higher score wins, equal
scores draw. First component is the home side's result. -/
def fixtureSides (f : Fixture) : PickResult × PickResult :=
  if f.homeScore > f.awayScore then (PickResult.win, PickResult.loss)
  else if f.homeScore < f.awayScore then (PickResult.loss, PickResult.win)
  else (PickResult.draw, PickResult.draw)

/-- The entry a single fixture contributes for team `t` in the per-round
results map. The away side is checked first because the JS object writes the
away assignment last, so it wins if a degenerate fixture lists the same team
on both sides. -/
def teamResultInFixture (f : Fixture) (t : Nat) : Option PickResult :=
  if f.awayTeamId = t then some (fixtureSides f).2
  else if f.homeTeamId = t then some (fixtureSides f).1
  else none

/-- The per-round results map (`teamResults` in the source): built by iterating
the finished fixtures and overwriting, so the last fixture mentioning a team
wins; looked up here by scanning the reversed list. -/
def teamResultFor (fs : List Fixture) (t : Nat) : Option PickResult :=
  fs.reverse.findSome? (fun f => teamResultInFixture f t)

/-- The finished fixtures of gameweek `gw` in the current season. -/
def finishedRoundFixtures (db : DB) (gw : Nat) : List Fixture :=
  db.fixtures.filter
    (fun f => f.gameweek = gw && f.season = db.currentSeason &&
      f.status = FixtureStatus.finished)

/-- Number of fixtures of gameweek `gw` in the current season that are not
finished (the "not ready" precondition of both processing paths). -/
def unfinishedCount (db : DB) (gw : Nat) : Nat :=
  (db.fixtures.filter
    (fun f => f.gameweek = gw && f.season = db.currentSeason &&
      f.status != FixtureStatus.finished)).length

/-- The picks of contest `g` for gameweek `gw` (step 4's `SELECT`). -/
def roundPicks (db : DB) (g gw : Nat) : List Pick :=
  db.picks.filter (fun p => p.gameId = g && p.gameweek = gw)

/-- The outcome written to a pick: the results-map entry for its team,
defaulting to `loss` when the team is absent from the map
(`teamResults[pick.pl_team_id] || 'loss'`). -/
def pickOutcomeOf (db : DB) (gw : Nat) (p : Pick) : PickResult :=
  (teamResultFor (finishedRoundFixtures db gw) p.plTeamId).getD PickResult.loss

/-- The alive members of contest `g` (`SELECT ... WHERE game_id AND status = 'alive'`). -/
def aliveRows (db : DB) (g : Nat) : List GamePlayer :=
  db.players.filter (fun r => r.gameId = g && r.status = PlayerStatus.alive)

/-- The `remaining` count of step 7. -/
def remainingAlive (db : DB) (g : Nat) : Nat :=
  (aliveRows db g).length

/-- The members scheduled for elimination from their picks: every round pick
whose computed outcome is not `win`, in pick order, paired with its pick id. -/
def elimFromPicks (db : DB) (g gw : Nat) : List (Nat × Option Nat) :=
  (roundPicks db g gw).filterMap
    (fun p => if pickOutcomeOf db gw p ≠ PickResult.win
              then some (p.gamePlayerId, some p.pickId) else none)

/-- The members auto-eliminated for not picking: alive members without a
round pick, paired with a null pick reference. -/
def elimNoPick (db : DB) (g gw : Nat) : List (Nat × Option Nat) :=
  (aliveRows db g).filterMap
    (fun r => if r.playerId ∈ (roundPicks db g gw).map (fun p => p.gamePlayerId)
              then none else some (r.playerId, none))

/-- The full `eliminated` list of one processing pass: pairs of (player id,
disqualifying pick id) — first the losing picks, then the no-pick defaults. -/
def elimEntries (db : DB) (g gw : Nat) : List (Nat × Option Nat) :=
  elimFromPicks db g gw ++ elimNoPick db g gw

/-- One primitive row write of the processing transaction, in the shape of the
source's `UPDATE` statements. -/
inductive DbWrite
  | setPickResult (pickId : Nat) (r : PickResult)
  | eliminateRow (playerId : Nat) (gw : Nat) (pickRef : Option Nat)
  | promoteWinner (playerId : Nat)
  | promoteDrawn (playerId : Nat)
  | completeWinner (gameId : Nat) (playerId : Nat)
  | completeDrawn (gameId : Nat)
deriving DecidableEq, Repr

/-- Apply one primitive write: each is the list-map reading of the
corresponding `UPDATE ... WHERE` statement in the source. Note that the
elimination write carries the `AND status = 'alive'` guard and the drawn
promotion does not. -/
def applyWrite (db : DB) : DbWrite → DB
  | DbWrite.setPickResult pid r =>
    let f := fun (q : Pick) =>
      if q.pickId = pid then { q with result := some r } else q
    { db with picks := db.picks.map f }
  | DbWrite.eliminateRow plid gw pref =>
    let f := fun (r : GamePlayer) =>
      if r.playerId = plid && r.status = PlayerStatus.alive then
        { r with status := PlayerStatus.eliminated,
                 eliminatedGameweek := some gw,
                 eliminatedPickId := pref }
      else r
    { db with players := db.players.map f }
  | DbWrite.promoteWinner plid =>
    let f := fun (r : GamePlayer) =>
      if r.playerId = plid then { r with status := PlayerStatus.winner } else r
    { db with players := db.players.map f }
  | DbWrite.promoteDrawn plid =>
    let f := fun (r : GamePlayer) =>
      if r.playerId = plid then { r with status := PlayerStatus.drawn } else r
    { db with players := db.players.map f }
  | DbWrite.completeWinner g plid =>
    let f := fun (gm : Game) =>
      if gm.gameId = g then
        { gm with status := GameStatus.completed, winnerPlayerId := some plid }
      else gm
    { db with games := db.games.map f }
  | DbWrite.completeDrawn g =>
    let f := fun (gm : Game) =>
      if gm.gameId = g then
        { gm with status := GameStatus.completed, isDraw := true }
      else gm
    { db with games := db.games.map f }

/-- Step 4's writes: set every round pick's result from the results map. -/
def resultWrites (db : DB) (g gw : Nat) : List DbWrite :=
  (roundPicks db g gw).map
    (fun p => DbWrite.setPickResult p.pickId (pickOutcomeOf db gw p))

/-- Step 6's writes: mark every scheduled member eliminated (guarded on alive). -/
def elimWrites (db : DB) (g gw : Nat) : List DbWrite :=
  (elimEntries db g gw).map (fun e => DbWrite.eliminateRow e.1 gw e.2)

/-- The state after steps 4–6 (outcomes and eliminations), before the
winner/draw resolution; the `remaining` count of step 7 is taken here. -/
def processPhase1 (db : DB) (g gw : Nat) : DB :=
  (resultWrites db g gw ++ elimWrites db g gw).foldl applyWrite db

/-- Step 7's writes: with exactly one member alive, promote the first alive row
to winner and complete the game recording it; with zero alive, promote every
entry of this pass's `eliminated` list to drawn and complete the game with the
draw flag; otherwise nothing. -/
def finishWrites (db : DB) (g gw : Nat) : List DbWrite :=
  let rem := remainingAlive (processPhase1 db g gw) g
  if rem = 1 then
    match (aliveRows (processPhase1 db g gw) g).head? with
    | some w => [DbWrite.promoteWinner w.playerId, DbWrite.completeWinner g w.playerId]
    | none => []
  else if rem = 0 then
    (elimEntries db g gw).map (fun e => DbWrite.promoteDrawn e.1)
    ++ [DbWrite.completeDrawn g]
  else []

/-- The full write list of one processing transaction, in source order. -/
def coreWrites (db : DB) (g gw : Nat) : List DbWrite :=
  resultWrites db g gw ++ elimWrites db g gw ++ finishWrites db g gw

/-- One committed processing pass for (contest `g`, gameweek `gw`): all writes
of the transaction applied. Shared verbatim by the admin route and the
per-game body of `processGameResults`. -/
def processGameCore (db : DB) (g gw : Nat) : DB :=
  (coreWrites db g gw).foldl applyWrite db

/-- Pointwise effect of the step-4 write loop on a pick row: the last write of
the loop whose pick id matches wins (the loop is a sequence of keyed updates). -/
def setResultApply (rows : List Pick) (vf : Pick → PickResult) (q : Pick) : Pick :=
  match rows.reverse.find? (fun p => p.pickId = q.pickId) with
  | some p => { q with result := some (vf p) }
  | none => q

/-- Pointwise effect of the step-6 elimination loop on a member row: because
each update is guarded on `status = 'alive'`, the first matching entry wins
and rows that are not alive are untouched. -/
def elimApply (gw : Nat) (es : List (Nat × Option Nat)) (r : GamePlayer) : GamePlayer :=
  if r.status = PlayerStatus.alive then
    match es.find? (fun e => e.1 = r.playerId) with
    | some e => { r with status := PlayerStatus.eliminated,
                         eliminatedGameweek := some gw,
                         eliminatedPickId := e.2 }
    | none => r
  else r

/-- Pointwise effect of the drawn-promotion loop on a member row: unguarded,
any matching entry sets the status to drawn. -/
def drawnApply (es : List (Nat × Option Nat)) (r : GamePlayer) : GamePlayer :=
  if es.any (fun e => e.1 = r.playerId) then { r with status := PlayerStatus.drawn }
  else r

/-- Result of the admin processing route. There is no "already processed"
outcome: the route has no such check. -/
inductive AdminRes
  | notFound
  | notActive
  | notReady (unfinished : Nat)
  | processed (eliminatedCount remaining : Nat) (gameStatus : GameStatus)
deriving DecidableEq, Repr

/-- `POST /api/games/:id/process-results` (src/routes/picks.js): reject when the
game is missing, not active, or the gameweek has unfinished fixtures (each a
rollback with no writes); otherwise run the full processing transaction. -/
def processResultsAdmin (db : DB) (g gw : Nat) : AdminRes × DB :=
  match db.games.find? (fun gm => gm.gameId = g) with
  | none => (AdminRes.notFound, db)
  | some game =>
    if game.status ≠ GameStatus.active then (AdminRes.notActive, db)
    else if unfinishedCount db gw ≠ 0 then (AdminRes.notReady (unfinishedCount db gw), db)
    else
      let rem := remainingAlive (processPhase1 db g gw) g
      (AdminRes.processed (elimEntries db g gw).length rem
        (if rem = 1 ∨ rem = 0 then GameStatus.completed else GameStatus.active),
       processGameCore db g gw)

/-- Result of the poller's per-game processing body. -/
inductive PollRes
  | alreadyProcessed
  | processed (eliminatedCount alive : Nat)
deriving DecidableEq, Repr

/-- The per-game transaction body of `processGameResults` (cron module): if any
round pick already carries a non-null result, report "already processed" and
roll back; otherwise run the same processing pass as the admin route. -/
def pollerProcessGame (db : DB) (g gw : Nat) : PollRes × DB :=
  if db.picks.any (fun p => p.gameId = g && p.gameweek = gw && p.result.isSome) then
    (PollRes.alreadyProcessed, db)
  else
    (PollRes.processed (elimEntries db g gw).length
      (remainingAlive (processPhase1 db g gw) g),
     processGameCore db g gw)

/-- `processGameResults(gameweek)` (cron module): if the gameweek has unfinished
fixtures report not ready with no writes; otherwise process every active game
whose start gameweek is at most `gw`, threading the store through the per-game
transactions. -/
def processGameResults (db : DB) (gw : Nat) : Option (List (Nat × PollRes)) × DB :=
  if unfinishedCount db gw ≠ 0 then (none, db)
  else
    let gs := db.games.filter
      (fun gm => gm.status = GameStatus.active && gm.startGameweek ≤ gw)
    let out := gs.foldl
      (fun (acc : List (Nat × PollRes) × DB) gm =>
        let step := pollerProcessGame acc.2 gm.gameId gw
        (acc.1 ++ [(gm.gameId, step.1)], step.2))
      ([], db)
    (some out.1, out.2)

/-- A transaction runner with fault injection: `failAt = some k` aborts the
transaction after `k` of its writes when `k` falls short of the write count,
rolling the store back to its initial state; otherwise every write commits. -/
def runTxn (db : DB) (ws : List DbWrite) (failAt : Option Nat) : DB :=
  match failAt with
  | none => ws.foldl applyWrite db
  | some k => if k < ws.length then db else ws.foldl applyWrite db

/-- The admin processing route under fault injection: precondition failures
leave the store unchanged (the source rolls back), and the processing writes
run inside `runTxn`. -/
def processResultsAdminFaulty (db : DB) (g gw : Nat) (failAt : Option Nat) : DB :=
  match db.games.find? (fun gm => gm.gameId = g) with
  | none => db
  | some game =>
    if game.status ≠ GameStatus.active then db
    else if unfinishedCount db gw ≠ 0 then db
    else runTxn db (coreWrites db g gw) failAt

/-! ## Pick submission (`POST /api/games/:id/picks`, src/routes/picks.js) -/

/-- A fresh pick id for an inserted row (the serial key). -/
def freshPickId (db : DB) : Nat :=
  (db.picks.map (fun p => p.pickId)).foldl max 0 + 1

/-- The distinct teams a member has used in a contest
(`SELECT DISTINCT pl_team_id FROM picks WHERE game_player_id AND game_id`). -/
def usedTeamIds (db : DB) (pid g : Nat) : List Nat :=
  ((db.picks.filter (fun p => p.gamePlayerId = pid && p.gameId = g)).map
    (fun p => p.plTeamId)).dedup

/-- The team of the member's existing pick for this exact round, if any. -/
def currentPickTeam (db : DB) (pid g gw : Nat) : Option Nat :=
  (db.picks.find?
    (fun p => p.gamePlayerId = pid && p.gameId = g && p.gameweek = gw)).map
    (fun p => p.plTeamId)

/-- The used-team list with the current round's pick filtered out
(`usedTeamIds.filter(id => id !== currentPickTeamId)`). -/
def usedExcludingCurrent (db : DB) (pid g gw : Nat) : List Nat :=
  match currentPickTeam db pid g gw with
  | none => usedTeamIds db pid g
  | some c => (usedTeamIds db pid g).filter (fun t => t ≠ c)

/-- `SELECT COUNT(*) FROM pl_teams WHERE season = $1` for the current season. -/
def totalTeams (db : DB) : Nat :=
  (db.teams.filter (fun t => t.season = db.currentSeason)).length

/-- Whether a team has a fixture in the given gameweek of the current season. -/
def teamHasFixture (db : DB) (t gw : Nat) : Bool :=
  db.fixtures.any
    (fun f => (f.homeTeamId = t || f.awayTeamId = t) &&
      f.gameweek = gw && f.season = db.currentSeason)

/-- Outcomes of the pick-submission route, one per rejectable condition. -/
inductive SubmitRes
  | gameNotFound
  | gameNotActive
  | gameNotStarted
  | notInGame
  | playerEliminated
  | deadlineOver
  | noFixture
  | alreadyUsed
  | ok
deriving DecidableEq, Repr

/-- `POST /api/games/:id/picks`: validates the nomination in source order and
upserts the pick for (game, member, resolved round), leaving the result column
of an updated row untouched. -/
def submitPick (db : DB) (g email teamId : Nat) (now : Int) : SubmitRes × DB :=
  let gw := resolveRoundForPick db
  match db.games.find? (fun gm => gm.gameId = g) with
  | none => (SubmitRes.gameNotFound, db)
  | some game =>
    if game.status ≠ GameStatus.active then (SubmitRes.gameNotActive, db)
    else if gw < game.startGameweek then (SubmitRes.gameNotStarted, db)
    else
      match db.players.find? (fun r => r.gameId = g && r.userEmail = email) with
      | none => (SubmitRes.notInGame, db)
      | some player =>
        if player.status ≠ PlayerStatus.alive then (SubmitRes.playerEliminated, db)
        else if !db.deadlineBypass &&
            (match roundDeadline db gw with
             | some d => decide (d < now)
             | none => false) then
          (SubmitRes.deadlineOver, db)
        else if !teamHasFixture db teamId gw then (SubmitRes.noFixture, db)
        else if teamId ∈ usedExcludingCurrent db player.playerId g gw ∧
            (usedExcludingCurrent db player.playerId g gw).length < totalTeams db then
          (SubmitRes.alreadyUsed, db)
        else if db.picks.any
            (fun p => p.gameId = g && p.gamePlayerId = player.playerId &&
              p.gameweek = gw) then
          let f := fun (p : Pick) =>
            if p.gameId = g && p.gamePlayerId = player.playerId && p.gameweek = gw
            then { p with plTeamId := teamId } else p
          (SubmitRes.ok, { db with picks := db.picks.map f })
        else
          (SubmitRes.ok,
           { db with picks := db.picks ++
              [{ pickId := freshPickId db, gameId := g,
                 gamePlayerId := player.playerId, gameweek := gw,
                 plTeamId := teamId, result := none }] })

/-! ## Round listing and history (visibility) -/

/-- A row of the `GET /api/games/:id/picks/:gameweek` response (after the
deadline): the pick joined to its member and team. -/
structure GwPickRow where
  pickId : Nat
  result : Option PickResult
  username : Nat
  userEmail : Nat
  playerStatus : PlayerStatus
  team : Nat
deriving DecidableEq, Repr

/-- The response of `GET /api/games/:id/picks/:gameweek`. -/
structure GwPicksResponse where
  deadlineOver : Bool
  picks : List GwPickRow
deriving DecidableEq, Repr

/-- Join a pick to its member and team rows (inner join: `none` drops the row). -/
def gwPickRow (db : DB) (p : Pick) : Option GwPickRow :=
  match db.players.find? (fun r => r.playerId = p.gamePlayerId),
        db.teams.find? (fun t => t.teamId = p.plTeamId) with
  | some gp, some t =>
    some { pickId := p.pickId, result := p.result, username := gp.username,
           userEmail := gp.userEmail, playerStatus := gp.status, team := t.teamId }
  | _, _ => none

/-- `GET /api/games/:id/picks/:gameweek` (src/routes/picks.js): before the
deadline (or whenever the bypass is on, which forces `deadlinePassed` to
false) the response carries an empty pick list; afterwards, the full rows. -/
def getPicksForGameweek (db : DB) (g gw : Nat) (now : Int) : GwPicksResponse :=
  if deadlinePassed db gw now then
    { deadlineOver := true,
      picks := (db.picks.filter (fun p => p.gameId = g && p.gameweek = gw)).filterMap
        (gwPickRow db) }
  else
    { deadlineOver := false, picks := [] }

/-- A row of the `GET /api/games/:id/history` response: when hidden, the team
and result are nulled but the member's identity stays visible. -/
structure HistRow where
  pickId : Nat
  playerId : Nat
  username : Nat
  userEmail : Nat
  team : Option Nat
  result : Option PickResult
  hidden : Bool
deriving DecidableEq, Repr

/-- One history row for a pick (src/routes/games.js, deadline-aware history):
visible when the pick's gameweek deadline has passed (bypass forces all
deadlines to count as not passed) or the requester is the nominator;
otherwise the team and result are redacted and the row is marked hidden. -/
def historyRow (db : DB) (requester : Option Nat) (now : Int) (p : Pick) :
    Option HistRow :=
  match db.players.find? (fun r => r.playerId = p.gamePlayerId),
        db.teams.find? (fun t => t.teamId = p.plTeamId) with
  | some gp, some t =>
    if deadlinePassed db p.gameweek now || requester = some gp.userEmail then
      some { pickId := p.pickId, playerId := gp.playerId, username := gp.username,
             userEmail := gp.userEmail, team := some t.teamId, result := p.result,
             hidden := false }
    else
      some { pickId := p.pickId, playerId := gp.playerId, username := gp.username,
             userEmail := gp.userEmail, team := none, result := none,
             hidden := true }
  | _, _ => none

/-- `GET /api/games/:id/history`: every pick of the game, each row projected
through the visibility rule (the per-gameweek grouping of the response is
presentational and omitted). -/
def historyForGame (db : DB) (g : Nat) (requester : Option Nat) (now : Int) :
    List HistRow :=
  (db.picks.filter (fun p => p.gameId = g)).filterMap (historyRow db requester now)

/-! ## Administrative operations (src/routes/games.js) -/

/-- The result recomputed by the import-pick route for a team in a gameweek:
from the first fixture of the team in that gameweek of the current season,
only when that fixture is finished; `none` otherwise. -/
def importResultFor (db : DB) (teamId gw : Nat) : Option PickResult :=
  match db.fixtures.find?
      (fun f => (f.homeTeamId = teamId || f.awayTeamId = teamId) &&
        f.gameweek = gw && f.season = db.currentSeason) with
  | some f =>
    if f.status = FixtureStatus.finished then
      some (if f.homeScore > f.awayScore then
              (if f.homeTeamId = teamId then PickResult.win else PickResult.loss)
            else if f.homeScore < f.awayScore then
              (if f.homeTeamId = teamId then PickResult.loss else PickResult.win)
            else PickResult.draw)
    else none
  | none => none

/-- Outcomes of the import-pick route. -/
inductive ImportRes
  | playerNotFound
  | teamNotFound
  | ok
deriving DecidableEq, Repr

/-- `POST /api/games/:id/import-pick`: looks up the member and the team (by
short name and season), recomputes the result from the team's fixture, and
upserts the pick for (game, member, gameweek) overwriting both the team and
the stored result. No deadline, game-status, member-status or team-reuse
check appears on this path. -/
def importPick (db : DB) (g playerEmail gw teamShort : Nat) : ImportRes × DB :=
  match db.players.find? (fun r => r.gameId = g && r.userEmail = playerEmail) with
  | none => (ImportRes.playerNotFound, db)
  | some pl =>
    match db.teams.find?
        (fun t => t.shortName = teamShort && t.season = db.currentSeason) with
    | none => (ImportRes.teamNotFound, db)
    | some tm =>
      let newResult := importResultFor db tm.teamId gw
      if db.picks.any
          (fun p => p.gameId = g && p.gamePlayerId = pl.playerId &&
            p.gameweek = gw) then
        let f := fun (p : Pick) =>
          if p.gameId = g && p.gamePlayerId = pl.playerId && p.gameweek = gw
          then { p with plTeamId := tm.teamId, result := newResult } else p
        (ImportRes.ok, { db with picks := db.picks.map f })
      else
        (ImportRes.ok,
         { db with picks := db.picks ++
            [{ pickId := freshPickId db, gameId := g, gamePlayerId := pl.playerId,
               gameweek := gw, plTeamId := tm.teamId, result := newResult }] })

/-- `POST /api/games/:id/set-player-status`: set a member's status directly.
When eliminating with a gameweek given, the elimination gameweek is recorded;
when reviving to alive, the elimination fields are cleared; nothing else is
validated and the game record is never touched. Returns whether a member row
matched. -/
def setPlayerStatus (db : DB) (g email : Nat) (st : PlayerStatus)
    (elimGw : Option Nat) : DB × Bool :=
  let upd := fun (r : GamePlayer) =>
    if st = PlayerStatus.eliminated && elimGw.isSome then
      { r with status := st, eliminatedGameweek := elimGw }
    else if st = PlayerStatus.alive then
      { r with status := st, eliminatedGameweek := none, eliminatedPickId := none }
    else
      { r with status := st }
  let f := fun (r : GamePlayer) =>
    if r.gameId = g && r.userEmail = email then upd r else r
  ({ db with players := db.players.map f },
   db.players.any (fun r => r.gameId = g && r.userEmail = email))

/-! ## The completed-contest winner/draw invariant (spec section 8) -/

/-- Number of members of contest `g` having a given status. -/
def statusCount (db : DB) (g : Nat) (st : PlayerStatus) : Nat :=
  (db.players.filter (fun r => r.gameId = g && r.status = st)).length

/-- The winner side of the invariant: the winner reference is set and exactly
one member has status winner. -/
def winnerSide (db : DB) (gm : Game) : Prop :=
  gm.winnerPlayerId.isSome = true ∧ statusCount db gm.gameId PlayerStatus.winner = 1

/-- The drawn side of the invariant: the draw flag is set and at least one
member has status drawn. -/
def drawnSide (db : DB) (gm : Game) : Prop :=
  gm.isDraw = true ∧ 1 ≤ statusCount db gm.gameId PlayerStatus.drawn

/-- The completed-contest invariant for the rows of contest `g`: once
completed, exactly one of the winner side and the drawn side holds. -/
def winnerDrawInvariant (db : DB) (g : Nat) : Prop :=
  ∀ gm ∈ db.games, gm.gameId = g → gm.status = GameStatus.completed →
    (winnerSide db gm ∧ ¬ drawnSide db gm) ∨ (drawnSide db gm ∧ ¬ winnerSide db gm)

instance (db : DB) (gm : Game) : Decidable (winnerSide db gm) := by
  unfold winnerSide; infer_instance

instance (db : DB) (gm : Game) : Decidable (drawnSide db gm) := by
  unfold drawnSide; infer_instance

instance (db : DB) (g : Nat) : Decidable (winnerDrawInvariant db g) := by
  unfold winnerDrawInvariant; infer_instance

/-! ## Concrete states used by counterexamples and witnesses -/

/-- A game whose gameweek-1 picks already carry outcomes (the round was
processed) while two members are still alive. -/
def exampleAlreadyProcessed : DB :=
  { teams := [⟨10, 2024, 1⟩, ⟨20, 2024, 2⟩],
    fixtures := [⟨2024, 1, 10, 70, 2, 0, FixtureStatus.finished, some 0⟩,
                 ⟨2024, 1, 20, 80, 2, 0, FixtureStatus.finished, some 0⟩],
    games := [⟨1, 2024, 99, 1, GameStatus.active, none, false⟩],
    players := [⟨1, 1, 100, 100, PlayerStatus.alive, none, none⟩,
                ⟨2, 1, 200, 200, PlayerStatus.alive, none, none⟩],
    picks := [⟨101, 1, 1, 1, 10, some PickResult.win⟩,
              ⟨102, 1, 2, 1, 20, some PickResult.win⟩],
    currentSeason := 2024, currentGameweek := 1,
    gameweekOverride := none, deadlineBypass := false }

/-- A game at gameweek 5 where member 1 was already eliminated in gameweek 4
but holds a (losing) gameweek-5 pick, and member 2 is alive with a losing
pick: processing leaves nobody alive. -/
def examplePriorElimination : DB :=
  { teams := [⟨10, 2024, 1⟩, ⟨20, 2024, 2⟩, ⟨30, 2024, 3⟩, ⟨40, 2024, 4⟩],
    fixtures := [⟨2024, 5, 10, 30, 0, 1, FixtureStatus.finished, some 0⟩,
                 ⟨2024, 5, 20, 40, 0, 1, FixtureStatus.finished, some 0⟩],
    games := [⟨1, 2024, 99, 1, GameStatus.active, none, false⟩],
    players := [⟨1, 1, 100, 100, PlayerStatus.eliminated, some 4, some 7⟩,
                ⟨2, 1, 200, 200, PlayerStatus.alive, none, none⟩],
    picks := [⟨101, 1, 1, 5, 10, none⟩, ⟨102, 1, 2, 5, 20, none⟩],
    currentSeason := 2024, currentGameweek := 5,
    gameweekOverride := none, deadlineBypass := false }

/-- A store whose round override (7), auto-detected gameweek (5) and stored
current gameweek (3) all differ. -/
def exampleRoundMismatch : DB :=
  { teams := [], fixtures := [⟨2024, 5, 10, 20, 0, 0, FixtureStatus.scheduled, some 0⟩],
    games := [], players := [], picks := [],
    currentSeason := 2024, currentGameweek := 3,
    gameweekOverride := some 7, deadlineBypass := false }

/-- A two-team season where the member has used both teams (team 1 in
gameweek 1, team 2 as the current gameweek-2 pick) and tries to change the
current pick back to team 1. -/
def examplePoolExhausted : DB :=
  { teams := [⟨1, 2024, 1⟩, ⟨2, 2024, 2⟩],
    fixtures := [⟨2024, 2, 1, 2, 0, 0, FixtureStatus.scheduled, none⟩],
    games := [⟨1, 2024, 99, 1, GameStatus.active, none, false⟩],
    players := [⟨1, 1, 100, 100, PlayerStatus.alive, none, none⟩],
    picks := [⟨101, 1, 1, 1, 1, some PickResult.win⟩, ⟨102, 1, 1, 2, 2, none⟩],
    currentSeason := 2024, currentGameweek := 2,
    gameweekOverride := some 2, deadlineBypass := false }

/-- A game with one nomination for gameweek 1 whose deadline (time 100) has
not yet passed. -/
def exampleBeforeDeadline : DB :=
  { teams := [⟨10, 2024, 1⟩],
    fixtures := [⟨2024, 1, 10, 20, 0, 0, FixtureStatus.scheduled, some 100⟩],
    games := [⟨1, 2024, 99, 1, GameStatus.active, none, false⟩],
    players := [⟨1, 1, 100, 100, PlayerStatus.alive, none, none⟩],
    picks := [⟨101, 1, 1, 1, 10, none⟩],
    currentSeason := 2024, currentGameweek := 1,
    gameweekOverride := none, deadlineBypass := false }

/-- A game with one nomination for gameweek 1 whose deadline (time 10) has
passed, but with the deadline bypass switched on. -/
def exampleBypassOn : DB :=
  { teams := [⟨10, 2024, 1⟩],
    fixtures := [⟨2024, 1, 10, 20, 0, 0, FixtureStatus.scheduled, some 10⟩],
    games := [⟨1, 2024, 99, 1, GameStatus.active, none, false⟩],
    players := [⟨1, 1, 100, 100, PlayerStatus.alive, none, none⟩],
    picks := [⟨101, 1, 1, 1, 10, none⟩],
    currentSeason := 2024, currentGameweek := 1,
    gameweekOverride := none, deadlineBypass := true }

/-- Same state as `exampleBypassOn` but with the bypass off, so the
gameweek-1 deadline counts as passed. -/
def exampleAfterDeadline : DB :=
  { teams := [⟨10, 2024, 1⟩],
    fixtures := [⟨2024, 1, 10, 20, 0, 0, FixtureStatus.scheduled, some 10⟩],
    games := [⟨1, 2024, 99, 1, GameStatus.active, none, false⟩],
    players := [⟨1, 1, 100, 100, PlayerStatus.alive, none, none⟩],
    picks := [⟨101, 1, 1, 1, 10, none⟩],
    currentSeason := 2024, currentGameweek := 1,
    gameweekOverride := none, deadlineBypass := false }

/-- The scenario of spec section 8, example A, with the three member ids as
parameters: three alive members at gameweek 5, each nominating a team with a
finished fixture; the first member's team (10) wins 2-0 and the other two
teams (20, 30) lose 0-2. -/
def scenarioA (p1 p2 p3 : Nat) : DB :=
  { teams := [⟨10, 2024, 1⟩, ⟨20, 2024, 2⟩, ⟨30, 2024, 3⟩],
    fixtures := [⟨2024, 5, 10, 40, 2, 0, FixtureStatus.finished, some 0⟩,
                 ⟨2024, 5, 20, 50, 0, 2, FixtureStatus.finished, some 0⟩,
                 ⟨2024, 5, 30, 60, 0, 2, FixtureStatus.finished, some 0⟩],
    games := [⟨1, 2024, 99, 1, GameStatus.active, none, false⟩],
    players := [⟨p1, 1, 100, 100, PlayerStatus.alive, none, none⟩,
                ⟨p2, 1, 200, 200, PlayerStatus.alive, none, none⟩,
                ⟨p3, 1, 300, 300, PlayerStatus.alive, none, none⟩],
    picks := [⟨101, 1, p1, 5, 10, none⟩, ⟨102, 1, p2, 5, 20, none⟩,
              ⟨103, 1, p3, 5, 30, none⟩],
    currentSeason := 2024, currentGameweek := 5,
    gameweekOverride := none, deadlineBypass := false }

/-- A completed contest won by member 1 (winner reference set, exactly one
winner-status member). -/
def exampleCompletedWinner : DB :=
  { teams := [], fixtures := [],
    games := [⟨1, 2024, 99, 1, GameStatus.completed, some 1, false⟩],
    players := [⟨1, 1, 100, 100, PlayerStatus.winner, none, none⟩,
                ⟨2, 1, 200, 200, PlayerStatus.eliminated, some 3, none⟩],
    picks := [],
    currentSeason := 2024, currentGameweek := 4,
    gameweekOverride := none, deadlineBypass := false }

/-- A state for the import-pick route: the target game is completed, the
member is eliminated, the team (short name 5) has no gameweek-3 fixture, and
the existing gameweek-3 pick already carries a `win` outcome. -/
def exampleImportTarget : DB :=
  { teams := [⟨10, 2024, 5⟩],
    fixtures := [],
    games := [⟨1, 2024, 99, 1, GameStatus.completed, none, false⟩],
    players := [⟨1, 1, 100, 100, PlayerStatus.eliminated, some 1, none⟩],
    picks := [⟨101, 1, 1, 3, 7, some PickResult.win⟩],
    currentSeason := 2024, currentGameweek := 3,
    gameweekOverride := none, deadlineBypass := false }

/-! ## Lemmas: frame properties of the primitive writes -/

theorem applyWrite_fixtures (db : DB) (w : DbWrite) :
    (applyWrite db w).fixtures = db.fixtures := by
  cases w <;> rfl

theorem applyWrite_teams (db : DB) (w : DbWrite) :
    (applyWrite db w).teams = db.teams := by
  cases w <;> rfl

theorem applyWrite_settings (db : DB) (w : DbWrite) :
    (applyWrite db w).currentSeason = db.currentSeason ∧
    (applyWrite db w).currentGameweek = db.currentGameweek ∧
    (applyWrite db w).gameweekOverride = db.gameweekOverride ∧
    (applyWrite db w).deadlineBypass = db.deadlineBypass := by
  cases w <;> exact ⟨rfl, rfl, rfl, rfl⟩

theorem foldlWrite_fixtures (ws : List DbWrite) (db : DB) :
    (ws.foldl applyWrite db).fixtures = db.fixtures := by
  induction ws generalizing db with
  | nil => rfl
  | cons w ws ih => rw [List.foldl_cons, ih, applyWrite_fixtures]

theorem foldlWrite_teams (ws : List DbWrite) (db : DB) :
    (ws.foldl applyWrite db).teams = db.teams := by
  induction ws generalizing db with
  | nil => rfl
  | cons w ws ih => rw [List.foldl_cons, ih, applyWrite_teams]

theorem foldlWrite_settings (ws : List DbWrite) (db : DB) :
    (ws.foldl applyWrite db).currentSeason = db.currentSeason ∧
    (ws.foldl applyWrite db).currentGameweek = db.currentGameweek ∧
    (ws.foldl applyWrite db).gameweekOverride = db.gameweekOverride ∧
    (ws.foldl applyWrite db).deadlineBypass = db.deadlineBypass := by
  induction ws generalizing db with
  | nil => exact ⟨rfl, rfl, rfl, rfl⟩
  | cons w ws ih =>
    rw [List.foldl_cons]
    obtain ⟨h1, h2, h3, h4⟩ := ih (applyWrite db w)
    obtain ⟨g1, g2, g3, g4⟩ := applyWrite_settings db w
    exact ⟨h1.trans g1, h2.trans g2, h3.trans g3, h4.trans g4⟩

/-! ## Lemmas: pointwise characterization of the write loops -/

theorem setResultApply_cons (p : Pick) (rs : List Pick) (vf : Pick → PickResult)
    (q : Pick) :
    setResultApply rs vf
      (if q.pickId = p.pickId then { q with result := some (vf p) } else q)
    = setResultApply (p :: rs) vf q := by
  unfold setResultApply
  by_cases h : q.pickId = p.pickId
  · simp only [h, if_true, List.reverse_cons, List.find?_append]
    cases hfind : rs.reverse.find? (fun x => x.pickId = p.pickId) with
    | some p1 => simp [hfind]
    | none => simp [hfind, List.find?]
  · simp only [h, if_false, List.reverse_cons, List.find?_append]
    cases hfind : rs.reverse.find? (fun x => x.pickId = q.pickId) with
    | some p1 => simp [hfind]
    | none => simp [hfind, List.find?, decide_eq_false (Ne.symm h)]

theorem foldl_setPickResult_picks (rows : List Pick) (vf : Pick → PickResult)
    (db : DB) :
    ((rows.map (fun p => DbWrite.setPickResult p.pickId (vf p))).foldl
      applyWrite db).picks
    = db.picks.map (setResultApply rows vf) := by
  induction rows generalizing db with
  | nil =>
    simp only [List.map_nil, List.foldl_nil]
    exact ((List.map_congr_left
      (fun a _ => (rfl : setResultApply [] vf a = id a))).trans
        (List.map_id _)).symm
  | cons p rs ih =>
    simp only [List.map_cons, List.foldl_cons]
    rw [ih]
    show (db.picks.map _).map _ = _
    rw [List.map_map]
    exact List.map_congr_left (fun q _ => setResultApply_cons p rs vf q)

theorem foldl_setPickResult_players (rows : List Pick) (vf : Pick → PickResult)
    (db : DB) :
    ((rows.map (fun p => DbWrite.setPickResult p.pickId (vf p))).foldl
      applyWrite db).players = db.players := by
  induction rows generalizing db with
  | nil => rfl
  | cons p rs ih => simp only [List.map_cons, List.foldl_cons]; rw [ih]; rfl

theorem foldl_setPickResult_games (rows : List Pick) (vf : Pick → PickResult)
    (db : DB) :
    ((rows.map (fun p => DbWrite.setPickResult p.pickId (vf p))).foldl
      applyWrite db).games = db.games := by
  induction rows generalizing db with
  | nil => rfl
  | cons p rs ih => simp only [List.map_cons, List.foldl_cons]; rw [ih]; rfl

theorem elimApply_cons (e : Nat × Option Nat) (es : List (Nat × Option Nat))
    (gw : Nat) (r : GamePlayer) :
    elimApply gw es
      (if r.playerId = e.1 && r.status = PlayerStatus.alive then
        { r with status := PlayerStatus.eliminated,
                 eliminatedGameweek := some gw, eliminatedPickId := e.2 }
       else r)
    = elimApply gw (e :: es) r := by
  unfold elimApply
  by_cases hst : r.status = PlayerStatus.alive
  · by_cases h : r.playerId = e.1
    · simp [h, hst, List.find?]
    · simp [h, hst, List.find?, Ne.symm h]
  · simp [hst, Bool.and_eq_true]

theorem foldl_eliminateRow_players (es : List (Nat × Option Nat)) (gw : Nat)
    (db : DB) :
    ((es.map (fun e => DbWrite.eliminateRow e.1 gw e.2)).foldl
      applyWrite db).players
    = db.players.map (elimApply gw es) := by
  induction es generalizing db with
  | nil =>
    simp only [List.map_nil, List.foldl_nil]
    refine ((List.map_congr_left (fun r _ =>
      (?_ : elimApply gw [] r = id r))).trans (List.map_id _)).symm
    unfold elimApply
    split <;> rfl
  | cons e es ih =>
    simp only [List.map_cons, List.foldl_cons]
    rw [ih]
    show (db.players.map _).map _ = _
    rw [List.map_map]
    exact List.map_congr_left (fun r _ => elimApply_cons e es gw r)

theorem foldl_eliminateRow_picks (es : List (Nat × Option Nat)) (gw : Nat)
    (db : DB) :
    ((es.map (fun e => DbWrite.eliminateRow e.1 gw e.2)).foldl
      applyWrite db).picks = db.picks := by
  induction es generalizing db with
  | nil => rfl
  | cons e es ih => simp only [List.map_cons, List.foldl_cons]; rw [ih]; rfl

theorem foldl_eliminateRow_games (es : List (Nat × Option Nat)) (gw : Nat)
    (db : DB) :
    ((es.map (fun e => DbWrite.eliminateRow e.1 gw e.2)).foldl
      applyWrite db).games = db.games := by
  induction es generalizing db with
  | nil => rfl
  | cons e es ih => simp only [List.map_cons, List.foldl_cons]; rw [ih]; rfl

theorem drawnApply_cons (e : Nat × Option Nat) (es : List (Nat × Option Nat))
    (r : GamePlayer) :
    drawnApply es
      (if r.playerId = e.1 then { r with status := PlayerStatus.drawn } else r)
    = drawnApply (e :: es) r := by
  unfold drawnApply
  by_cases h : r.playerId = e.1
  · by_cases hany : es.any (fun x => x.1 = r.playerId) <;> simp [h, hany]
  · by_cases hany : es.any (fun x => x.1 = r.playerId) <;>
      simp [h, hany, Ne.symm h]

theorem foldl_promoteDrawn_players (es : List (Nat × Option Nat)) (db : DB) :
    ((es.map (fun e => DbWrite.promoteDrawn e.1)).foldl applyWrite db).players
    = db.players.map (drawnApply es) := by
  induction es generalizing db with
  | nil =>
    simp only [List.map_nil, List.foldl_nil]
    refine ((List.map_congr_left (fun r _ =>
      (rfl : drawnApply [] r = id r))).trans (List.map_id _)).symm
  | cons e es ih =>
    simp only [List.map_cons, List.foldl_cons]
    rw [ih]
    show (db.players.map _).map _ = _
    rw [List.map_map]
    exact List.map_congr_left (fun r _ => drawnApply_cons e es r)

theorem foldl_promoteDrawn_picks (es : List (Nat × Option Nat)) (db : DB) :
    ((es.map (fun e => DbWrite.promoteDrawn e.1)).foldl applyWrite db).picks
    = db.picks := by
  induction es generalizing db with
  | nil => rfl
  | cons e es ih => simp only [List.map_cons, List.foldl_cons]; rw [ih]; rfl

theorem foldl_promoteDrawn_games (es : List (Nat × Option Nat)) (db : DB) :
    ((es.map (fun e => DbWrite.promoteDrawn e.1)).foldl applyWrite db).games
    = db.games := by
  induction es generalizing db with
  | nil => rfl
  | cons e es ih => simp only [List.map_cons, List.foldl_cons]; rw [ih]; rfl

/-! ## Lemmas: characterizing one processing pass -/

theorem processPhase1_picks (db : DB) (g gw : Nat) :
    (processPhase1 db g gw).picks
    = db.picks.map (setResultApply (roundPicks db g gw) (pickOutcomeOf db gw)) := by
  unfold processPhase1 resultWrites elimWrites
  rw [List.foldl_append, foldl_eliminateRow_picks, foldl_setPickResult_picks]

theorem processPhase1_players (db : DB) (g gw : Nat) :
    (processPhase1 db g gw).players
    = db.players.map (elimApply gw (elimEntries db g gw)) := by
  unfold processPhase1 resultWrites elimWrites
  rw [List.foldl_append, foldl_eliminateRow_players, foldl_setPickResult_players]

theorem processPhase1_games (db : DB) (g gw : Nat) :
    (processPhase1 db g gw).games = db.games := by
  unfold processPhase1 resultWrites elimWrites
  rw [List.foldl_append, foldl_eliminateRow_games, foldl_setPickResult_games]

theorem processGameCore_eq_finish (db : DB) (g gw : Nat) :
    processGameCore db g gw
    = (finishWrites db g gw).foldl applyWrite (processPhase1 db g gw) := by
  unfold processGameCore coreWrites processPhase1
  rw [List.foldl_append]

/-- The three-way case split of step 7 on the remaining-alive count. -/
theorem finishWrites_cases (db : DB) (g gw : Nat) :
    (remainingAlive (processPhase1 db g gw) g = 1 ∧
      ∃ w, (aliveRows (processPhase1 db g gw) g).head? = some w ∧
        finishWrites db g gw
          = [DbWrite.promoteWinner w.playerId, DbWrite.completeWinner g w.playerId]) ∨
    (remainingAlive (processPhase1 db g gw) g = 0 ∧
      finishWrites db g gw
        = (elimEntries db g gw).map (fun e => DbWrite.promoteDrawn e.1)
          ++ [DbWrite.completeDrawn g]) ∨
    (2 ≤ remainingAlive (processPhase1 db g gw) g ∧ finishWrites db g gw = []) := by
  unfold finishWrites
  by_cases h1 : remainingAlive (processPhase1 db g gw) g = 1
  · left
    refine ⟨h1, ?_⟩
    obtain ⟨w, hw⟩ := List.length_eq_one.mp h1
    exact ⟨w, by rw [hw]; rfl, by simp [h1, hw]⟩
  · by_cases h0 : remainingAlive (processPhase1 db g gw) g = 0
    · right; left
      exact ⟨h0, by simp [h1, h0]⟩
    · right; right
      refine ⟨?_, by simp [h1, h0]⟩
      omega

theorem processGameCore_active (db : DB) (g gw : Nat)
    (h : finishWrites db g gw = []) :
    processGameCore db g gw = processPhase1 db g gw := by
  rw [processGameCore_eq_finish, h, List.foldl_nil]

theorem processGameCore_winner (db : DB) (g gw : Nat) (w : GamePlayer)
    (h : finishWrites db g gw
      = [DbWrite.promoteWinner w.playerId, DbWrite.completeWinner g w.playerId]) :
    (processGameCore db g gw).picks = (processPhase1 db g gw).picks ∧
    (processGameCore db g gw).players
      = (processPhase1 db g gw).players.map
          (fun r => if r.playerId = w.playerId
                    then { r with status := PlayerStatus.winner } else r) ∧
    (processGameCore db g gw).games
      = db.games.map
          (fun gm => if gm.gameId = g
                     then { gm with status := GameStatus.completed,
                                    winnerPlayerId := some w.playerId }
                     else gm) := by
  rw [processGameCore_eq_finish, h]
  refine ⟨rfl, rfl, ?_⟩
  show (processPhase1 db g gw).games.map _ = _
  rw [processPhase1_games]

theorem processGameCore_drawn (db : DB) (g gw : Nat)
    (h : finishWrites db g gw
      = (elimEntries db g gw).map (fun e => DbWrite.promoteDrawn e.1)
        ++ [DbWrite.completeDrawn g]) :
    (processGameCore db g gw).picks = (processPhase1 db g gw).picks ∧
    (processGameCore db g gw).players
      = (processPhase1 db g gw).players.map (drawnApply (elimEntries db g gw)) ∧
    (processGameCore db g gw).games
      = db.games.map
          (fun gm => if gm.gameId = g
                     then { gm with status := GameStatus.completed, isDraw := true }
                     else gm) := by
  rw [processGameCore_eq_finish, h, List.foldl_append]
  simp only [List.foldl_cons, List.foldl_nil]
  refine ⟨?_, ?_, ?_⟩
  · exact foldl_promoteDrawn_picks _ _
  · exact foldl_promoteDrawn_players _ _
  · show (((elimEntries db g gw).map (fun e => DbWrite.promoteDrawn e.1)).foldl
      applyWrite (processPhase1 db g gw)).games.map _ = _
    rw [foldl_promoteDrawn_games, processPhase1_games]

/-! ## Claim C4: round resolution -/

/-- Claim C4, counterexample: for the same stored data, the pick-submission
path resolves the active round to 7 (the override) while the poller's
trailing window is computed from the stored current gameweek 3 only, so the
two round-sensitive operations do not compute the active round identically. -/
theorem C4_counterexample :
    resolveRoundForPick exampleRoundMismatch = 7 ∧
    pollerCurrentRound exampleRoundMismatch = 3 ∧
    resolveRoundForPick exampleRoundMismatch ≠
      pollerCurrentRound exampleRoundMismatch ∧
    resolveRoundForPick exampleRoundMismatch ∉ pollerWindow exampleRoundMismatch := by
  decide

/-- Claim C4 (amended): the pick-submission route and the history route both
resolve the active round exactly by the spec's rule (override, else earliest
round with an unfinished fixture, else last round when all fixtures are
finished, else the stored fallback); the poller's window instead ends at the
stored current-gameweek value. -/
theorem resolveRoundForPick_eq_spec (db : DB) :
    resolveRoundForPick db = resolveRoundSpec db := by
  unfold resolveRoundForPick resolveRoundSpec autoDetectGameweek
  cases db.gameweekOverride with
  | some gw => rfl
  | none =>
    cases hmin : minNat ((db.fixtures.filter
        (fun f => f.season = db.currentSeason &&
          f.status != FixtureStatus.finished)).map (fun f => f.gameweek)) with
    | some m => simp [hmin]
    | none =>
      simp only [hmin]
      by_cases hlen : (db.fixtures.filter
          (fun f => f.season = db.currentSeason)).length > 0
      · simp only [hlen, if_true]
        cases hmax : maxNat ((db.fixtures.filter
            (fun f => f.season = db.currentSeason)).map (fun f => f.gameweek)) with
        | some m => simp [hmax]
        | none => simp [hmax]
      · simp [hlen]

theorem C4_theorem :
    (∀ db : DB, resolveRoundForPick db = resolveRoundSpec db) ∧
    (∀ db : DB, resolveRoundHistory db = resolveRoundSpec db) ∧
    (∀ db : DB, pollerCurrentRound db = db.currentGameweek) := by
  refine ⟨fun db => resolveRoundForPick_eq_spec db, fun db => ?_, fun db => rfl⟩
  have h : resolveRoundHistory db = resolveRoundForPick db := rfl
  rw [h, resolveRoundForPick_eq_spec]

/-! ## Claim C2: drawn promotion scope -/

/-- Claim C2: in `examplePriorElimination`, member 1 was eliminated in
gameweek 4 (before this pass) yet processing gameweek 5 — which eliminates
only member 2 and leaves nobody alive — promotes member 1 to drawn as well,
because the drawn-promotion loop runs over every losing round pick without a
status guard. The code's own comment says the players eliminated THIS week
share the draw, and spec section 9 requires exactly that. -/
theorem C2_theorem :
    (examplePriorElimination.players.map
      (fun r => (r.playerId, r.status, r.eliminatedGameweek)))
      = [(1, PlayerStatus.eliminated, some 4), (2, PlayerStatus.alive, none)] ∧
    ((processResultsAdmin examplePriorElimination 1 5).2.players.map
      (fun r => (r.playerId, r.status)))
      = [(1, PlayerStatus.drawn), (2, PlayerStatus.drawn)] ∧
    (∀ gm ∈ (processResultsAdmin examplePriorElimination 1 5).2.games,
      gm.status = GameStatus.completed ∧ gm.isDraw = true) := by
  decide

/-! ## Claim C8: scenario A -/

/-- Claim C8, counterexample: in the three-alive-member scenario with two
losses and one win, the two losers are eliminated so exactly one member
remains alive — the processor therefore promotes that member to winner and
completes the contest, contradicting the claim that the winner stays alive
and the contest remains active. -/
theorem C8_counterexample :
    ((scenarioA 1 2 3).players.map (fun r => r.status))
      = [PlayerStatus.alive, PlayerStatus.alive, PlayerStatus.alive] ∧
    (∀ r ∈ (processResultsAdmin (scenarioA 1 2 3) 1 5).2.players,
      r.playerId = 1 → r.status ≠ PlayerStatus.alive) ∧
    (∀ gm ∈ (processResultsAdmin (scenarioA 1 2 3) 1 5).2.games,
      gm.status ≠ GameStatus.active) := by
  decide

set_option maxHeartbeats 1000000 in
/-- Claim C8 (amended): in a contest with three alive members at round 5 where
all three nominate teams with finished fixtures, two picks losing and one
winning, processing eliminates the two losers with elimination round 5 and —
because exactly one member then remains alive — promotes the winning member
to `winner` and completes the contest, recording the winner. -/
theorem C8_theorem (p1 p2 p3 : Nat) (h12 : p1 ≠ p2) (h13 : p1 ≠ p3)
    (h23 : p2 ≠ p3) :
    ((processResultsAdmin (scenarioA p1 p2 p3) 1 5).1
      = AdminRes.processed 2 1 GameStatus.completed) ∧
    (∀ r ∈ (processResultsAdmin (scenarioA p1 p2 p3) 1 5).2.players,
      (r.playerId = p2 ∨ r.playerId = p3) →
      r.status = PlayerStatus.eliminated ∧ r.eliminatedGameweek = some 5) ∧
    (∀ r ∈ (processResultsAdmin (scenarioA p1 p2 p3) 1 5).2.players,
      r.playerId = p1 → r.status = PlayerStatus.winner) ∧
    (∀ gm ∈ (processResultsAdmin (scenarioA p1 p2 p3) 1 5).2.games,
      gm.status = GameStatus.completed ∧ gm.winnerPlayerId = some p1) := by
  have h21 := h12.symm
  have h31 := h13.symm
  have h32 := h23.symm
  simp [processResultsAdmin, processGameCore, coreWrites, resultWrites,
    elimWrites, finishWrites, processPhase1, elimEntries, elimFromPicks,
    elimNoPick, roundPicks,
    pickOutcomeOf, teamResultFor, finishedRoundFixtures, teamResultInFixture,
    fixtureSides, aliveRows, remainingAlive, unfinishedCount, scenarioA,
    applyWrite, List.find?, List.findSome?, List.filter, List.foldl,
    h12, h13, h23, h21, h31, h32]

/-- Claim C8, witness: the amended scenario statement at member ids 1, 2, 3. -/
theorem C8_witness :
    ((processResultsAdmin (scenarioA 1 2 3) 1 5).1
      = AdminRes.processed 2 1 GameStatus.completed) ∧
    (∀ r ∈ (processResultsAdmin (scenarioA 1 2 3) 1 5).2.players,
      (r.playerId = 2 ∨ r.playerId = 3) →
      r.status = PlayerStatus.eliminated ∧ r.eliminatedGameweek = some 5) ∧
    (∀ r ∈ (processResultsAdmin (scenarioA 1 2 3) 1 5).2.players,
      r.playerId = 1 → r.status = PlayerStatus.winner) ∧
    (∀ gm ∈ (processResultsAdmin (scenarioA 1 2 3) 1 5).2.games,
      gm.status = GameStatus.completed ∧ gm.winnerPlayerId = some 1) :=
  C8_theorem 1 2 3 (by decide) (by decide) (by decide)

/-! ## Claim C10: the import-pick path -/

/-- Claim C10: the import-pick upsert succeeds for any member and team that
exist, with the store otherwise arbitrary — no deadline, game-status,
member-status or team-reuse condition appears — and the stored pick for
(member, round) ends up with the imported team and a freshly recomputed
(possibly null) result, overwriting any previously stored outcome; all other
picks survive unchanged. -/
theorem C10_theorem (db : DB) (g email gw short : Nat) (pl : GamePlayer)
    (tm : Team)
    (hpl : db.players.find? (fun r => r.gameId = g && r.userEmail = email) = some pl)
    (htm : db.teams.find?
      (fun t => t.shortName = short && t.season = db.currentSeason) = some tm) :
    (importPick db g email gw short).1 = ImportRes.ok ∧
    (∀ p ∈ (importPick db g email gw short).2.picks,
      p.gameId = g → p.gamePlayerId = pl.playerId → p.gameweek = gw →
      p.plTeamId = tm.teamId ∧ p.result = importResultFor db tm.teamId gw) ∧
    (∃ p ∈ (importPick db g email gw short).2.picks,
      p.gameId = g ∧ p.gamePlayerId = pl.playerId ∧ p.gameweek = gw) ∧
    (∀ p ∈ db.picks,
      ¬(p.gameId = g ∧ p.gamePlayerId = pl.playerId ∧ p.gameweek = gw) →
      p ∈ (importPick db g email gw short).2.picks) := by
  unfold importPick
  rw [hpl, htm]
  dsimp only
  by_cases hex : db.picks.any
      (fun p => p.gameId = g && p.gamePlayerId = pl.playerId && p.gameweek = gw)
  · rw [if_pos hex]
    refine ⟨rfl, ?_, ?_, ?_⟩
    · intro p hp hg hpid hgw
      simp only [List.mem_map] at hp
      obtain ⟨p0, hp0, rfl⟩ := hp
      cases hc : (p0.gameId = g && p0.gamePlayerId = pl.playerId &&
          p0.gameweek = gw) with
      | true => simp [hc]
      | false =>
        exfalso
        simp only [hc] at hg hpid hgw
        simp only [Bool.false_eq_true, if_false] at hg hpid hgw
        simp [hg, hpid, hgw] at hc
    · rw [List.any_eq_true] at hex
      obtain ⟨p0, hp0, hc⟩ := hex
      refine ⟨if p0.gameId = g && p0.gamePlayerId = pl.playerId &&
          p0.gameweek = gw
        then { p0 with plTeamId := tm.teamId,
                       result := importResultFor db tm.teamId gw } else p0,
        List.mem_map_of_mem _ hp0, ?_⟩
      simp only [Bool.and_eq_true, decide_eq_true_eq] at hc
      have hc2 : (p0.gameId = g && p0.gamePlayerId = pl.playerId &&
          p0.gameweek = gw) = true := by
        simp [hc.1.1, hc.1.2, hc.2]
      simp [hc2, hc.1.1, hc.1.2, hc.2]
    · intro p hp hnc
      have hcf : (p.gameId = g && p.gamePlayerId = pl.playerId &&
          p.gameweek = gw) = false := by
        rw [Bool.eq_false_iff]
        intro hc
        simp only [Bool.and_eq_true, decide_eq_true_eq] at hc
        exact hnc ⟨hc.1.1, hc.1.2, hc.2⟩
      have hfix : (if p.gameId = g && p.gamePlayerId = pl.playerId &&
          p.gameweek = gw
        then { p with plTeamId := tm.teamId,
                      result := importResultFor db tm.teamId gw } else p) = p := by
        rw [hcf]; rfl
      rw [← hfix]
      exact List.mem_map_of_mem _ hp
  · rw [if_neg hex]
    refine ⟨rfl, ?_, ?_, ?_⟩
    · intro p hp hg hpid hgw
      rw [List.mem_append] at hp
      cases hp with
      | inl hin =>
        exfalso
        simp only [List.any_eq_true] at hex
        exact hex ⟨p, hin, by simp [hg, hpid, hgw]⟩
      | inr hin =>
        rw [List.mem_singleton] at hin
        subst hin
        exact ⟨rfl, rfl⟩
    · exact ⟨_, List.mem_append_right _ (List.mem_singleton_self _), rfl, rfl, rfl⟩
    · intro p hp _
      exact List.mem_append_left _ hp

/-- Claim C10, witness: in `exampleImportTarget` the game is completed, the
member eliminated, the team has no gameweek-3 fixture, and the old pick held
a `win` — the import still succeeds and overwrites the outcome with the
recomputed null value. -/
theorem C10_witness :
    (importPick exampleImportTarget 1 100 3 5).1 = ImportRes.ok ∧
    (∀ p ∈ (importPick exampleImportTarget 1 100 3 5).2.picks,
      p.gameId = 1 → p.gamePlayerId = 1 → p.gameweek = 3 →
      p.plTeamId = 10 ∧ p.result = importResultFor exampleImportTarget 10 3) ∧
    (∃ p ∈ (importPick exampleImportTarget 1 100 3 5).2.picks,
      p.gameId = 1 ∧ p.gamePlayerId = 1 ∧ p.gameweek = 3) ∧
    (∀ p ∈ exampleImportTarget.picks,
      ¬(p.gameId = 1 ∧ p.gamePlayerId = 1 ∧ p.gameweek = 3) →
      p ∈ (importPick exampleImportTarget 1 100 3 5).2.picks) :=
  C10_theorem exampleImportTarget 1 100 3 5
    ⟨1, 1, 100, 100, PlayerStatus.eliminated, some 1, none⟩
    ⟨10, 2024, 5⟩ (by decide) (by decide)

/-! ## Claim C5: the entity-reuse rule -/

/-- Claim C5, counterexample: in `examplePoolExhausted` the member has used
every team of the season at least once (team 1 in gameweek 1, team 2 as the
current gameweek-2 pick), yet re-nominating team 1 for the current round is
rejected as already used — the pool-exhaustion exception of the claim does
not fire because the implementation counts distinct used teams after
excluding the current pick's team. -/
theorem C5_counterexample :
    (∀ t ∈ examplePoolExhausted.teams,
      t.season = examplePoolExhausted.currentSeason →
      t.teamId ∈ usedTeamIds examplePoolExhausted 1 1) ∧
    (submitPick examplePoolExhausted 1 100 1 0).1 = SubmitRes.alreadyUsed := by
  decide

/-- The deadline guard of the pick-submission route coincides with
`deadlinePassed`. -/
theorem submit_deadline_guard (db : DB) (gw : Nat) (now : Int) :
    (!db.deadlineBypass &&
      (match roundDeadline db gw with
       | some d => decide (d < now)
       | none => false)) = deadlinePassed db gw now := by
  unfold deadlinePassed
  cases h : db.deadlineBypass with
  | true => simp [h]
  | false => simp [h]

/-- Claim C5 (amended): once the earlier preconditions pass, the submission is
rejected as already-used exactly when the chosen entity appears among the
member's used teams with the current round's pick excluded and that excluded
count falls short of the season's team count — so the pool-exhaustion
exception never applies while a current-round pick exists (its team is
excluded from the count), and a fresh nomination after all N teams are used
may repeat an entity; otherwise the submission succeeds. -/
theorem C5_theorem (db : DB) (g email teamId : Nat) (now : Int)
    (game : Game) (player : GamePlayer)
    (hgame : db.games.find? (fun gm => gm.gameId = g) = some game)
    (hactive : game.status = GameStatus.active)
    (hstarted : ¬ resolveRoundForPick db < game.startGameweek)
    (hplayer : db.players.find?
      (fun r => r.gameId = g && r.userEmail = email) = some player)
    (halive : player.status = PlayerStatus.alive)
    (hdl : deadlinePassed db (resolveRoundForPick db) now = false)
    (hfx : teamHasFixture db teamId (resolveRoundForPick db) = true) :
    ((submitPick db g email teamId now).1 = SubmitRes.alreadyUsed ↔
      teamId ∈ usedExcludingCurrent db player.playerId g (resolveRoundForPick db) ∧
      (usedExcludingCurrent db player.playerId g
        (resolveRoundForPick db)).length < totalTeams db) ∧
    ((submitPick db g email teamId now).1 = SubmitRes.alreadyUsed ∨
      (submitPick db g email teamId now).1 = SubmitRes.ok) := by
  unfold submitPick
  rw [hgame, hplayer]
  dsimp only
  rw [if_neg (fun hne => hne hactive)]
  rw [if_neg hstarted]
  rw [if_neg (fun hne => hne halive)]
  rw [submit_deadline_guard, hdl]
  rw [if_neg (by simp)]
  rw [hfx]
  rw [if_neg (by simp)]
  by_cases hused : teamId ∈ usedExcludingCurrent db player.playerId g
      (resolveRoundForPick db) ∧
      (usedExcludingCurrent db player.playerId g
        (resolveRoundForPick db)).length < totalTeams db
  · rw [if_pos hused]
    exact ⟨⟨fun _ => hused, fun _ => rfl⟩, Or.inl rfl⟩
  · rw [if_neg hused]
    by_cases hany : db.picks.any
        (fun p => p.gameId = g && p.gamePlayerId = player.playerId &&
          p.gameweek = resolveRoundForPick db)
    · rw [if_pos hany]
      exact ⟨⟨fun h => absurd h (by simp), fun h => absurd h hused⟩, Or.inr rfl⟩
    · rw [if_neg hany]
      exact ⟨⟨fun h => absurd h (by simp), fun h => absurd h hused⟩, Or.inr rfl⟩

/-- Claim C5, witness: the amended characterization applied to
`examplePoolExhausted`, where the rejection condition holds. -/
theorem C5_witness :
    ((submitPick examplePoolExhausted 1 100 1 0).1 = SubmitRes.alreadyUsed ↔
      1 ∈ usedExcludingCurrent examplePoolExhausted 1 1
        (resolveRoundForPick examplePoolExhausted) ∧
      (usedExcludingCurrent examplePoolExhausted 1 1
        (resolveRoundForPick examplePoolExhausted)).length <
        totalTeams examplePoolExhausted) ∧
    ((submitPick examplePoolExhausted 1 100 1 0).1 = SubmitRes.alreadyUsed ∨
      (submitPick examplePoolExhausted 1 100 1 0).1 = SubmitRes.ok) :=
  C5_theorem examplePoolExhausted 1 100 1 0
    ⟨1, 2024, 99, 1, GameStatus.active, none, false⟩
    ⟨1, 1, 100, 100, PlayerStatus.alive, none, none⟩
    (by decide) (by decide) (by decide) (by decide) (by decide) (by decide)
    (by decide)

/-! ## Claim C6: visibility before the deadline -/

/-- Claim C6, counterexample: before the gameweek-1 deadline the per-round
listing returns no rows at all — the stored nomination is neither shown
redacted with the nominator's identity nor shown to the nominator (the
endpoint takes no requester into account), contradicting the claim. -/
theorem C6_counterexample :
    (exampleBeforeDeadline.picks.filter
      (fun p => p.gameId = 1 && p.gameweek = 1)).length = 1 ∧
    deadlinePassed exampleBeforeDeadline 1 50 = false ∧
    (getPicksForGameweek exampleBeforeDeadline 1 1 50).picks = [] := by
  decide

/-- Claim C6 (amended): before a round's deadline the per-round listing hides
everything (empty list, no identities, no own-pick exception); the redaction
the claim describes is implemented by the game-history listing, which keeps
the nominator's identity visible, redacts the entity and result for other
requesters, and leaves the requester's own pick unredacted; every pick of the
game whose joins succeed yields a history row. -/
theorem C6_theorem :
    (∀ (db : DB) (g gw : Nat) (now : Int),
      deadlinePassed db gw now = false →
      getPicksForGameweek db g gw now = ⟨false, []⟩) ∧
    (∀ (db : DB) (requester : Option Nat) (now : Int) (p : Pick)
        (gp : GamePlayer) (t : Team) (row : HistRow),
      db.players.find? (fun r => r.playerId = p.gamePlayerId) = some gp →
      db.teams.find? (fun t2 => t2.teamId = p.plTeamId) = some t →
      deadlinePassed db p.gameweek now = false →
      historyRow db requester now p = some row →
      row.username = gp.username ∧ row.userEmail = gp.userEmail ∧
      (requester = some gp.userEmail →
        row.team = some t.teamId ∧ row.hidden = false) ∧
      (requester ≠ some gp.userEmail →
        row.team = none ∧ row.result = none ∧ row.hidden = true)) ∧
    (∀ (db : DB) (g : Nat) (requester : Option Nat) (now : Int) (p : Pick),
      p ∈ db.picks → p.gameId = g →
      ∀ row, historyRow db requester now p = some row →
      row ∈ historyForGame db g requester now) := by
  refine ⟨?_, ?_, ?_⟩
  · intro db g gw now h
    unfold getPicksForGameweek
    rw [h]
    rfl
  · intro db requester now p gp t row hgp ht hdl hrow
    unfold historyRow at hrow
    rw [hgp, ht] at hrow
    dsimp only at hrow
    rw [hdl] at hrow
    by_cases hreq : requester = some gp.userEmail
    · rw [if_pos (by simp [hreq])] at hrow
      obtain rfl := Option.some.inj hrow
      exact ⟨rfl, rfl, fun _ => ⟨rfl, rfl⟩, fun hne => absurd hreq hne⟩
    · rw [if_neg (by simp [hreq])] at hrow
      obtain rfl := Option.some.inj hrow
      exact ⟨rfl, rfl, fun heq => absurd heq hreq, fun _ => ⟨rfl, rfl, rfl⟩⟩
  · intro db g requester now p hp hg row hrow
    unfold historyForGame
    rw [List.mem_filterMap]
    exact ⟨p, List.mem_filter.mpr ⟨hp, by simp [hg]⟩, hrow⟩

/-- Claim C6, witness: the amended statement applied to
`exampleBeforeDeadline` at time 50 with a requester who is not the nominator. -/
theorem C6_witness :
    (getPicksForGameweek exampleBeforeDeadline 1 1 50 = ⟨false, []⟩) ∧
    ((⟨101, 1, 100, 100, none, none, true⟩ : HistRow).username = 100 ∧
      (⟨101, 1, 100, 100, none, none, true⟩ : HistRow).userEmail = 100 ∧
      ((some 999 : Option Nat) = some 100 →
        (⟨101, 1, 100, 100, none, none, true⟩ : HistRow).team = some 10 ∧
        (⟨101, 1, 100, 100, none, none, true⟩ : HistRow).hidden = false) ∧
      ((some 999 : Option Nat) ≠ some 100 →
        (⟨101, 1, 100, 100, none, none, true⟩ : HistRow).team = none ∧
        (⟨101, 1, 100, 100, none, none, true⟩ : HistRow).result = none ∧
        (⟨101, 1, 100, 100, none, none, true⟩ : HistRow).hidden = true)) :=
  ⟨C6_theorem.1 exampleBeforeDeadline 1 1 50 (by decide),
   C6_theorem.2.1 exampleBeforeDeadline (some 999) 50
     ⟨101, 1, 1, 1, 10, none⟩
     ⟨1, 1, 100, 100, PlayerStatus.alive, none, none⟩
     ⟨10, 2024, 1⟩ ⟨101, 1, 100, 100, none, none, true⟩
     (by decide) (by decide) (by decide) (by decide)⟩

/-! ## Claim C7: visibility after the deadline and under the bypass -/

/-- Claim C7, counterexample: in `exampleBypassOn` the gameweek-1 deadline
(time 10) has passed at time 100, but because the deadline bypass is on the
history listing still returns the nomination redacted for a requester who is
not the nominator — the bypass hides picks instead of revealing them, so
"deadline passed or bypass on implies fully visible" fails. -/
theorem C7_counterexample :
    exampleBypassOn.deadlineBypass = true ∧
    roundDeadline exampleBypassOn 1 = some 10 ∧ ((10 : Int) < 100) ∧
    historyForGame exampleBypassOn 1 (some 99) 100
      = [⟨101, 1, 100, 100, none, none, true⟩] ∧
    (getPicksForGameweek exampleBypassOn 1 1 100).picks = [] := by
  decide

/-- Claim C7 (amended): whenever a round's deadline counts as passed — which
requires the bypass to be off — the per-round listing reports the deadline
passed and carries a full row for every joinable nomination of the round, and
every history row of that round is unredacted (entity and result visible);
when the bypass is on, every deadline counts as not passed and the hidden
behavior of C6 applies instead. -/
theorem C7_theorem :
    (∀ (db : DB) (g gw : Nat) (now : Int),
      deadlinePassed db gw now = true →
      (getPicksForGameweek db g gw now).deadlineOver = true ∧
      ∀ p ∈ db.picks, p.gameId = g → p.gameweek = gw →
        ∀ row, gwPickRow db p = some row →
          row ∈ (getPicksForGameweek db g gw now).picks) ∧
    (∀ (db : DB) (requester : Option Nat) (now : Int) (p : Pick) (row : HistRow),
      deadlinePassed db p.gameweek now = true →
      historyRow db requester now p = some row →
      row.hidden = false ∧ row.team = some p.plTeamId ∧ row.result = p.result) ∧
    (∀ (db : DB) (gw : Nat) (now : Int),
      deadlinePassed db gw now = true → db.deadlineBypass = false) := by
  refine ⟨?_, ?_, ?_⟩
  · intro db g gw now h
    unfold getPicksForGameweek
    rw [h, if_pos rfl]
    refine ⟨rfl, ?_⟩
    intro p hp hg hgw row hrow
    rw [List.mem_filterMap]
    exact ⟨p, List.mem_filter.mpr ⟨hp, by simp [hg, hgw]⟩, hrow⟩
  · intro db requester now p row hdl hrow
    unfold historyRow at hrow
    cases hgp : db.players.find? (fun r => r.playerId = p.gamePlayerId) with
    | none => rw [hgp] at hrow; exact absurd hrow (by simp)
    | some gp =>
      cases ht : db.teams.find? (fun t2 => t2.teamId = p.plTeamId) with
      | none => rw [hgp, ht] at hrow; exact absurd hrow (by simp)
      | some t =>
        rw [hgp, ht] at hrow
        dsimp only at hrow
        rw [hdl] at hrow
        rw [if_pos (by simp)] at hrow
        obtain rfl := Option.some.inj hrow
        have hteq : t.teamId = p.plTeamId := by
          have := List.find?_some ht
          simpa using this
        exact ⟨rfl, by simp [hteq], rfl⟩
  · intro db gw now h
    unfold deadlinePassed at h
    cases hb : db.deadlineBypass with
    | true => rw [hb] at h; simp at h
    | false => rfl

/-- Claim C7, witness: the amended statement applied to
`exampleAfterDeadline` at time 100 (deadline 10 passed, bypass off). -/
theorem C7_witness :
    ((getPicksForGameweek exampleAfterDeadline 1 1 100).deadlineOver = true ∧
      ∀ p ∈ exampleAfterDeadline.picks, p.gameId = 1 → p.gameweek = 1 →
        ∀ row, gwPickRow exampleAfterDeadline p = some row →
          row ∈ (getPicksForGameweek exampleAfterDeadline 1 1 100).picks) ∧
    ((⟨101, 1, 100, 100, some 10, none, false⟩ : HistRow).hidden = false ∧
      (⟨101, 1, 100, 100, some 10, none, false⟩ : HistRow).team = some 10 ∧
      (⟨101, 1, 100, 100, some 10, none, false⟩ : HistRow).result = none) ∧
    exampleAfterDeadline.deadlineBypass = false :=
  ⟨C7_theorem.1 exampleAfterDeadline 1 1 100 (by decide),
   C7_theorem.2.1 exampleAfterDeadline (some 999) 100 ⟨101, 1, 1, 1, 10, none⟩
     ⟨101, 1, 100, 100, some 10, none, false⟩ (by decide) (by decide),
   C7_theorem.2.2 exampleAfterDeadline 1 100 (by decide)⟩

/-! ## Claim C3: transactional atomicity -/

theorem elimApply_playerId (gw : Nat) (es : List (Nat × Option Nat))
    (r : GamePlayer) : (elimApply gw es r).playerId = r.playerId := by
  unfold elimApply
  split
  · cases es.find? (fun e => e.1 = r.playerId) <;> rfl
  · rfl

theorem elimApply_gameId (gw : Nat) (es : List (Nat × Option Nat))
    (r : GamePlayer) : (elimApply gw es r).gameId = r.gameId := by
  unfold elimApply
  split
  · cases es.find? (fun e => e.1 = r.playerId) <;> rfl
  · rfl

theorem elimApply_alive (gw : Nat) (es : List (Nat × Option Nat))
    (r : GamePlayer) :
    (elimApply gw es r).status = PlayerStatus.alive ↔
      (r.status = PlayerStatus.alive ∧
        es.find? (fun e => e.1 = r.playerId) = none) := by
  unfold elimApply
  by_cases hst : r.status = PlayerStatus.alive
  · rw [if_pos hst]
    cases hfind : es.find? (fun e => e.1 = r.playerId) with
    | some e => simp [hfind]
    | none => simp [hfind, hst]
  · rw [if_neg hst]
    simp [hst]

theorem setResultApply_gameId (rows : List Pick) (vf : Pick → PickResult)
    (q : Pick) : (setResultApply rows vf q).gameId = q.gameId := by
  unfold setResultApply
  cases rows.reverse.find? (fun p => p.pickId = q.pickId) <;> rfl

theorem setResultApply_gameweek (rows : List Pick) (vf : Pick → PickResult)
    (q : Pick) : (setResultApply rows vf q).gameweek = q.gameweek := by
  unfold setResultApply
  cases rows.reverse.find? (fun p => p.pickId = q.pickId) <;> rfl

theorem setResultApply_pickId (rows : List Pick) (vf : Pick → PickResult)
    (q : Pick) : (setResultApply rows vf q).pickId = q.pickId := by
  unfold setResultApply
  cases rows.reverse.find? (fun p => p.pickId = q.pickId) <;> rfl

theorem setResultApply_plTeamId (rows : List Pick) (vf : Pick → PickResult)
    (q : Pick) : (setResultApply rows vf q).plTeamId = q.plTeamId := by
  unfold setResultApply
  cases rows.reverse.find? (fun p => p.pickId = q.pickId) <;> rfl

theorem processGameCore_picks (db : DB) (g gw : Nat) :
    (processGameCore db g gw).picks = (processPhase1 db g gw).picks := by
  rcases finishWrites_cases db g gw with ⟨_, w, _, hfin⟩ | ⟨_, hfin⟩ | ⟨_, hfin⟩
  · exact (processGameCore_winner db g gw w hfin).1
  · exact (processGameCore_drawn db g gw hfin).1
  · rw [processGameCore_active db g gw hfin]

/-- Every round pick of the committed state carries an outcome. -/
theorem processGameCore_outcomes (db : DB) (g gw : Nat) :
    ∀ q ∈ (processGameCore db g gw).picks, q.gameId = g → q.gameweek = gw →
      q.result.isSome = true := by
  intro q hq hqg hqw
  rw [processGameCore_picks, processPhase1_picks] at hq
  rw [List.mem_map] at hq
  obtain ⟨p0, hp0, rfl⟩ := hq
  rw [setResultApply_gameId] at hqg
  rw [setResultApply_gameweek] at hqw
  have hmem : p0 ∈ roundPicks db g gw := by
    unfold roundPicks
    exact List.mem_filter.mpr ⟨hp0, by simp [hqg, hqw]⟩
  unfold setResultApply
  cases hfind : (roundPicks db g gw).reverse.find? (fun p => p.pickId = p0.pickId) with
  | some p => simp
  | none =>
    exfalso
    rw [List.find?_eq_none] at hfind
    exact absurd (by simp : (fun p => decide (p.pickId = p0.pickId)) p0 = true)
      (by simpa using hfind p0 (List.mem_reverse.mpr hmem))

theorem drawnApply_playerId (es : List (Nat × Option Nat)) (r : GamePlayer) :
    (drawnApply es r).playerId = r.playerId := by
  unfold drawnApply
  split <;> rfl

theorem drawnApply_gameId (es : List (Nat × Option Nat)) (r : GamePlayer) :
    (drawnApply es r).gameId = r.gameId := by
  unfold drawnApply
  split <;> rfl

theorem drawnApply_alive (es : List (Nat × Option Nat)) (r : GamePlayer) :
    (drawnApply es r).status = PlayerStatus.alive →
      r.status = PlayerStatus.alive := by
  unfold drawnApply
  split
  · intro h; exact absurd h (by simp)
  · exact id

/-- The step-7 promotions factor as a row map over the phase-1 state that
never creates an alive row and keeps the player and game ids. -/
theorem core_players_factor (db : DB) (g gw : Nat) :
    ∃ φ : GamePlayer → GamePlayer,
      (processGameCore db g gw).players
        = (processPhase1 db g gw).players.map φ ∧
      ∀ r : GamePlayer,
        ((φ r).status = PlayerStatus.alive → r.status = PlayerStatus.alive) ∧
        (φ r).playerId = r.playerId ∧ (φ r).gameId = r.gameId := by
  rcases finishWrites_cases db g gw with ⟨_, w, _, hfin⟩ | ⟨_, hfin⟩ | ⟨_, hfin⟩
  · refine ⟨fun r => if r.playerId = w.playerId
      then { r with status := PlayerStatus.winner } else r,
      (processGameCore_winner db g gw w hfin).2.1, ?_⟩
    intro r
    dsimp only
    by_cases hw : r.playerId = w.playerId
    · rw [if_pos hw]
      exact ⟨fun h => absurd h (by simp), rfl, rfl⟩
    · rw [if_neg hw]
      exact ⟨id, rfl, rfl⟩
  · exact ⟨drawnApply (elimEntries db g gw),
      (processGameCore_drawn db g gw hfin).2.1,
      fun r => ⟨drawnApply_alive _ r, drawnApply_playerId _ r,
        drawnApply_gameId _ r⟩⟩
  · refine ⟨id, ?_, fun r => ⟨id, rfl, rfl⟩⟩
    rw [processGameCore_active db g gw hfin, List.map_id]

/-- In the committed state, no member of the contest who was scheduled for
elimination this pass is still alive: the eliminations land in the same
transaction as the outcome writes. -/
theorem processGameCore_eliminations (db : DB) (g gw : Nat) :
    ∀ r ∈ (processGameCore db g gw).players, r.gameId = g →
      r.status = PlayerStatus.alive →
      (elimEntries db g gw).find? (fun e => e.1 = r.playerId) = none := by
  intro r hr hrg hral
  obtain ⟨φ, hmap, hφ⟩ := core_players_factor db g gw
  rw [hmap, processPhase1_players, List.map_map, List.mem_map] at hr
  obtain ⟨r0, _, rfl⟩ := hr
  rw [Function.comp_apply] at hrg hral ⊢
  have h1 := (hφ (elimApply gw (elimEntries db g gw) r0)).1 hral
  have h2 := (hφ (elimApply gw (elimEntries db g gw) r0)).2.1
  have h3 := (elimApply_alive gw (elimEntries db g gw) r0).mp h1
  rw [h2, elimApply_playerId]
  exact h3.2

/-- Claim C3: under fault injection at any point of the transaction, the
stored state is either exactly the initial state (precondition failure or
rollback) or exactly the fully committed processing state — in which every
round nomination carries its outcome and every member scheduled for
elimination this pass has left the alive status, together. Eliminations are
never committed without the outcome writes nor vice versa. -/
theorem C3_theorem (db : DB) (g gw : Nat) (failAt : Option Nat) :
    processResultsAdminFaulty db g gw failAt = db ∨
    (processResultsAdminFaulty db g gw failAt = processGameCore db g gw ∧
     (∀ q ∈ (processGameCore db g gw).picks, q.gameId = g → q.gameweek = gw →
        q.result.isSome = true) ∧
     (∀ r ∈ (processGameCore db g gw).players, r.gameId = g →
        r.status = PlayerStatus.alive →
        (elimEntries db g gw).find? (fun e => e.1 = r.playerId) = none)) := by
  unfold processResultsAdminFaulty
  cases hfind : db.games.find? (fun gm => gm.gameId = g) with
  | none => exact Or.inl rfl
  | some game =>
    dsimp only
    by_cases hst : game.status ≠ GameStatus.active
    · rw [if_pos hst]; exact Or.inl rfl
    · rw [if_neg hst]
      by_cases hun : unfinishedCount db gw ≠ 0
      · rw [if_pos hun]; exact Or.inl rfl
      · rw [if_neg hun]
        unfold runTxn
        cases failAt with
        | none =>
          exact Or.inr ⟨rfl, processGameCore_outcomes db g gw,
            processGameCore_eliminations db g gw⟩
        | some k =>
          dsimp only
          by_cases hk : k < (coreWrites db g gw).length
          · rw [if_pos hk]; exact Or.inl rfl
          · rw [if_neg hk]
            exact Or.inr ⟨rfl, processGameCore_outcomes db g gw,
              processGameCore_eliminations db g gw⟩

/-- Claim C3, witness: the fault-injection statement at the concrete
gameweek-5 state, committing run (no fault). -/
theorem C3_witness :
    processResultsAdminFaulty examplePriorElimination 1 5 none
      = examplePriorElimination ∨
    (processResultsAdminFaulty examplePriorElimination 1 5 none
      = processGameCore examplePriorElimination 1 5 ∧
     (∀ q ∈ (processGameCore examplePriorElimination 1 5).picks,
        q.gameId = 1 → q.gameweek = 5 → q.result.isSome = true) ∧
     (∀ r ∈ (processGameCore examplePriorElimination 1 5).players,
        r.gameId = 1 → r.status = PlayerStatus.alive →
        (elimEntries examplePriorElimination 1 5).find?
          (fun e => e.1 = r.playerId) = none)) :=
  C3_theorem examplePriorElimination 1 5 none

/-! ## Claim C9: the completed-contest winner/draw invariant -/

/-- The status a row can have after the elimination map is never `winner`. -/
theorem elimApply_not_winner (gw : Nat) (es : List (Nat × Option Nat))
    (r : GamePlayer)
    (h : r.status = PlayerStatus.alive ∨ r.status = PlayerStatus.eliminated) :
    (elimApply gw es r).status ≠ PlayerStatus.winner := by
  unfold elimApply
  by_cases hst : r.status = PlayerStatus.alive
  · rw [if_pos hst]
    cases es.find? (fun e => e.1 = r.playerId) <;> simp [hst]
  · rw [if_neg hst]
    rcases h with h | h
    · exact absurd h hst
    · rw [h]; simp

theorem head_mem_of_head? {α : Type} (l : List α) (a : α)
    (h : l.head? = some a) : a ∈ l := by
  cases l with
  | nil => simp at h
  | cons b t =>
    simp only [List.head?_cons, Option.some.injEq] at h
    rw [← h]
    exact List.mem_cons_self _ _

/-- A processing pass started on a contest whose rows are an active game
(draw flag clear, no winner reference) with only alive/eliminated members,
at least one of them alive, commits a state satisfying the winner/draw
invariant. -/
theorem core_establishes_invariant (db : DB) (g gw : Nat)
    (hgame : ∀ gm ∈ db.games, gm.gameId = g →
      gm.status = GameStatus.active ∧ gm.isDraw = false ∧ gm.winnerPlayerId = none)
    (hst : ∀ r ∈ db.players, r.gameId = g →
      r.status = PlayerStatus.alive ∨ r.status = PlayerStatus.eliminated)
    (hnd : (db.players.map (fun r => r.playerId)).Nodup)
    (halive : ∃ r ∈ db.players, r.gameId = g ∧ r.status = PlayerStatus.alive) :
    winnerDrawInvariant (processGameCore db g gw) g := by
  intro gm2 hgm2 hid hcomp
  rcases finishWrites_cases db g gw with ⟨h1, w, hw, hfin⟩ | ⟨h0, hfin⟩ | ⟨_, hfin⟩
  -- winner branch
  · have hcg := processGameCore_winner db g gw w hfin
    rw [hcg.2.2, List.mem_map] at hgm2
    obtain ⟨gm0, hgm0, rfl⟩ := hgm2
    by_cases hg0 : gm0.gameId = g
    · rw [if_pos hg0] at hid hcomp ⊢
      obtain ⟨_, hdraw0, _⟩ := hgame gm0 hgm0 hg0
      left
      constructor
      · refine ⟨rfl, ?_⟩
        -- exactly one winner-status member
        rw [show ({ gm0 with status := GameStatus.completed, winnerPlayerId := some w.playerId } : Game).gameId = g from hg0]
        have hwmem : w ∈ aliveRows (processPhase1 db g gw) g :=
          head_mem_of_head? _ _ hw
        have hwg : w.gameId = g ∧ w.status = PlayerStatus.alive := by
          unfold aliveRows at hwmem
          have := (List.mem_filter.mp hwmem).2
          simpa using this
        have hwpl : w ∈ (processPhase1 db g gw).players :=
          List.mem_of_mem_filter hwmem
        rw [processPhase1_players, List.mem_map] at hwpl
        obtain ⟨r0, hr0, hr0w⟩ := hwpl
        have hwr0 : r0.playerId = w.playerId := by
          rw [← hr0w, elimApply_playerId]
        unfold statusCount
        rw [hcg.2.1, processPhase1_players, List.map_map,
          ← List.countP_eq_length_filter, List.countP_map]
        have hcong : ∀ r ∈ db.players,
            ((fun q => q.gameId = g && q.status = PlayerStatus.winner) ∘
              ((fun q => if q.playerId = w.playerId
                then { q with status := PlayerStatus.winner } else q) ∘
               elimApply gw (elimEntries db g gw))) r = true ↔
            ((fun x => x == w.playerId) ∘ (fun q : GamePlayer => q.playerId)) r
              = true := by
          intro r hr
          simp only [Function.comp_apply, Bool.and_eq_true, decide_eq_true_eq,
            beq_iff_eq]
          constructor
          · intro hP
            by_cases hpid : (elimApply gw (elimEntries db g gw) r).playerId
                = w.playerId
            · rw [elimApply_playerId] at hpid; exact hpid
            · rw [if_neg hpid] at hP
              exfalso
              have hgr : r.gameId = g := by
                rw [elimApply_gameId] at hP; exact hP.1
              exact elimApply_not_winner gw (elimEntries db g gw) r
                (hst r hr hgr) hP.2
          · intro hpid
            have hreq : r = r0 :=
              List.inj_on_of_nodup_map hnd hr hr0 (hpid.trans hwr0.symm)
            subst hreq
            rw [hr0w, if_pos rfl]
            exact ⟨hwg.1, rfl⟩
        rw [List.countP_congr hcong, ← List.countP_map, ← List.count_eq_countP]
        refine List.count_eq_one_of_mem hnd ?_
        rw [List.mem_map]
        exact ⟨r0, hr0, hwr0⟩
      · intro hB
        have hBd : gm0.isDraw = true := hB.1
        rw [hdraw0] at hBd
        exact absurd hBd (by simp)
    · rw [if_neg hg0] at hid
      exact absurd hid hg0
  -- drawn branch
  · have hcg := processGameCore_drawn db g gw hfin
    rw [hcg.2.2, List.mem_map] at hgm2
    obtain ⟨gm0, hgm0, rfl⟩ := hgm2
    by_cases hg0 : gm0.gameId = g
    · rw [if_pos hg0] at hid hcomp ⊢
      obtain ⟨_, _, hwin0⟩ := hgame gm0 hgm0 hg0
      right
      obtain ⟨ra, hra, hrag, hraal⟩ := halive
      have hfound : (elimEntries db g gw).find?
          (fun e => e.1 = ra.playerId) ≠ none := by
        intro hnone
        have halv : (elimApply gw (elimEntries db g gw) ra).status
            = PlayerStatus.alive :=
          (elimApply_alive gw (elimEntries db g gw) ra).mpr ⟨hraal, hnone⟩
        have hmem2 : elimApply gw (elimEntries db g gw) ra ∈
            aliveRows (processPhase1 db g gw) g := by
          unfold aliveRows
          refine List.mem_filter.mpr ⟨?_, ?_⟩
          · rw [processPhase1_players]
            exact List.mem_map_of_mem _ hra
          · simp [halv, elimApply_gameId, hrag]
        unfold remainingAlive at h0
        rw [List.length_eq_zero] at h0
        rw [h0] at hmem2
        exact absurd hmem2 (List.not_mem_nil _)
      have hdrawn : (drawnApply (elimEntries db g gw)
          (elimApply gw (elimEntries db g gw) ra)).status = PlayerStatus.drawn := by
        unfold drawnApply
        rw [if_pos ?_]
        cases hf : (elimEntries db g gw).find? (fun e => e.1 = ra.playerId) with
        | none => exact absurd hf hfound
        | some e =>
          have he1 : e ∈ elimEntries db g gw := List.mem_of_find?_eq_some hf
          have he2 := List.find?_some hf
          rw [List.any_eq_true]
          refine ⟨e, he1, ?_⟩
          rw [elimApply_playerId]
          exact he2
      constructor
      · refine ⟨rfl, ?_⟩
        rw [show ({ gm0 with status := GameStatus.completed, isDraw := true } : Game).gameId = g from hg0]
        unfold statusCount
        have hmem3 : drawnApply (elimEntries db g gw)
            (elimApply gw (elimEntries db g gw) ra) ∈
            (processGameCore db g gw).players := by
          rw [hcg.2.1, processPhase1_players, List.map_map]
          exact List.mem_map_of_mem _ hra
        have hcond : (fun r => r.gameId = g &&
            r.status = PlayerStatus.drawn)
            (drawnApply (elimEntries db g gw)
              (elimApply gw (elimEntries db g gw) ra)) = true := by
          simp [hdrawn, drawnApply_gameId, elimApply_gameId, hrag]
        have hmemf : drawnApply (elimEntries db g gw)
            (elimApply gw (elimEntries db g gw) ra) ∈
            (processGameCore db g gw).players.filter
              (fun r => r.gameId = g && r.status = PlayerStatus.drawn) :=
          List.mem_filter.mpr ⟨hmem3, hcond⟩
        exact List.length_pos.mpr (List.ne_nil_of_mem hmemf)
      · intro hA
        have hAw : gm0.winnerPlayerId.isSome = true := hA.1
        rw [hwin0] at hAw
        exact absurd hAw (by simp)
    · rw [if_neg hg0] at hid
      exact absurd hid hg0
  -- still-active branch
  · rw [processGameCore_active db g gw hfin, processPhase1_games] at hgm2
    obtain ⟨hact, _, _⟩ := hgame gm2 hgm2 hid
    rw [hact] at hcomp
    exact absurd hcomp (by simp)

/-- A store in which every row of contest `g` is an active game satisfies the
invariant vacuously. -/
theorem invariant_vacuous (db : DB) (g : Nat)
    (hgame : ∀ gm ∈ db.games, gm.gameId = g →
      gm.status = GameStatus.active ∧ gm.isDraw = false ∧
        gm.winnerPlayerId = none) :
    winnerDrawInvariant db g := by
  intro gm hm hid hcomp
  rw [(hgame gm hm hid).1] at hcomp
  exact absurd hcomp (by simp)

/-- Claim C9 (amended): both processing paths preserve and establish the
winner/draw invariant when run on an active contest whose members are only
alive or eliminated with at least one alive (the states the processor itself
produces); the administrative player-status override, however, can break the
invariant (see the counterexample). -/
theorem C9_theorem (db : DB) (g gw : Nat)
    (hgame : ∀ gm ∈ db.games, gm.gameId = g →
      gm.status = GameStatus.active ∧ gm.isDraw = false ∧ gm.winnerPlayerId = none)
    (hst : ∀ r ∈ db.players, r.gameId = g →
      r.status = PlayerStatus.alive ∨ r.status = PlayerStatus.eliminated)
    (hnd : (db.players.map (fun r => r.playerId)).Nodup)
    (halive : ∃ r ∈ db.players, r.gameId = g ∧ r.status = PlayerStatus.alive) :
    winnerDrawInvariant ((processResultsAdmin db g gw).2) g ∧
    winnerDrawInvariant ((pollerProcessGame db g gw).2) g := by
  have hdb := invariant_vacuous db g hgame
  have hcore := core_establishes_invariant db g gw hgame hst hnd halive
  constructor
  · unfold processResultsAdmin
    cases hfind : db.games.find? (fun gm => gm.gameId = g) with
    | none => exact hdb
    | some game =>
      dsimp only
      by_cases hact : game.status ≠ GameStatus.active
      · rw [if_pos hact]; exact hdb
      · rw [if_neg hact]
        by_cases hun : unfinishedCount db gw ≠ 0
        · rw [if_pos hun]; exact hdb
        · rw [if_neg hun]; exact hcore
  · unfold pollerProcessGame
    by_cases hany : db.picks.any
        (fun p => p.gameId = g && p.gameweek = gw && p.result.isSome)
    · rw [if_pos hany]; exact hdb
    · rw [if_neg hany]; exact hcore

/-- Claim C9, counterexample: `exampleCompletedWinner` satisfies the
invariant (winner reference set, exactly one winner-status member, draw flag
clear); the administrative status override then sets the winner member to
eliminated, leaving a completed contest with a winner reference but zero
winner-status members and no draw — the invariant no longer holds, so it is
not preserved by every operation. -/
theorem C9_counterexample :
    winnerDrawInvariant exampleCompletedWinner 1 ∧
    ¬ winnerDrawInvariant
        (setPlayerStatus exampleCompletedWinner 1 100
          PlayerStatus.eliminated (some 4)).1 1 := by
  decide

/-- Claim C9, witness: the amended preservation statement at the concrete
three-member scenario. -/
theorem C9_witness :
    winnerDrawInvariant ((processResultsAdmin (scenarioA 1 2 3) 1 5).2) 1 ∧
    winnerDrawInvariant ((pollerProcessGame (scenarioA 1 2 3) 1 5).2) 1 :=
  C9_theorem (scenarioA 1 2 3) 1 5 (by decide) (by decide) (by decide)
    (by decide)

/-! ## Claim C1: the already-processed check and idempotence -/

theorem find?_congruence {α : Type} (l : List α) (p q : α → Bool)
    (h : ∀ a, p a = q a) : l.find? p = l.find? q := by
  induction l with
  | nil => rfl
  | cons a t ih => simp only [List.find?_cons, h a, ih]

theorem processGameCore_fixtures (db : DB) (g gw : Nat) :
    (processGameCore db g gw).fixtures = db.fixtures :=
  foldlWrite_fixtures _ _

theorem processGameCore_season (db : DB) (g gw : Nat) :
    (processGameCore db g gw).currentSeason = db.currentSeason :=
  (foldlWrite_settings _ _).1

theorem finishedRoundFixtures_core (db : DB) (g gw gw2 : Nat) :
    finishedRoundFixtures (processGameCore db g gw) gw2
      = finishedRoundFixtures db gw2 := by
  unfold finishedRoundFixtures
  rw [processGameCore_fixtures, processGameCore_season]

theorem unfinishedCount_core (db : DB) (g gw gw2 : Nat) :
    unfinishedCount (processGameCore db g gw) gw2 = unfinishedCount db gw2 := by
  unfold unfinishedCount
  rw [processGameCore_fixtures, processGameCore_season]

theorem pickOutcomeOf_core (db : DB) (g gw : Nat) (q : Pick) :
    pickOutcomeOf (processGameCore db g gw) gw q = pickOutcomeOf db gw q := by
  unfold pickOutcomeOf
  rw [finishedRoundFixtures_core]

theorem setResultApply_gamePlayerId (rows : List Pick) (vf : Pick → PickResult)
    (q : Pick) : (setResultApply rows vf q).gamePlayerId = q.gamePlayerId := by
  unfold setResultApply
  cases rows.reverse.find? (fun p => p.pickId = q.pickId) <;> rfl

theorem pickOutcomeOf_setResultApply (db : DB) (gw : Nat) (rows : List Pick)
    (vf : Pick → PickResult) (q : Pick) :
    pickOutcomeOf db gw (setResultApply rows vf q) = pickOutcomeOf db gw q := by
  unfold pickOutcomeOf
  rw [setResultApply_plTeamId]

theorem core_picks_map (db : DB) (g gw : Nat) :
    (processGameCore db g gw).picks
      = db.picks.map (setResultApply (roundPicks db g gw) (pickOutcomeOf db gw)) := by
  rw [processGameCore_picks, processPhase1_picks]

theorem roundPicks_core (db : DB) (g gw : Nat) :
    roundPicks (processGameCore db g gw) g gw
      = (roundPicks db g gw).map
          (setResultApply (roundPicks db g gw) (pickOutcomeOf db gw)) := by
  unfold roundPicks
  rw [core_picks_map, List.filter_map]
  congr 1
  apply List.filter_congr
  intro p hp
  simp only [Function.comp_apply, setResultApply_gameId, setResultApply_gameweek]

/-- Rewriting a pick a second time with the post-processing round data leaves
it unchanged: the step-4 write is a per-row fixed point. -/
theorem setResultApply_core_fix (db : DB) (g gw : Nat) (x : Pick) :
    setResultApply (roundPicks (processGameCore db g gw) g gw)
      (pickOutcomeOf (processGameCore db g gw) gw)
      (setResultApply (roundPicks db g gw) (pickOutcomeOf db gw) x)
    = setResultApply (roundPicks db g gw) (pickOutcomeOf db gw) x := by
  rw [roundPicks_core]
  conv_lhs => rw [setResultApply]
  rw [← List.map_reverse, List.find?_map]
  rw [find?_congruence _ _ (fun a => a.pickId = x.pickId)
    (by intro a; simp [Function.comp_apply, setResultApply_pickId])]
  cases hf : (roundPicks db g gw).reverse.find?
      (fun a => a.pickId = x.pickId) with
  | none => rfl
  | some p =>
    dsimp only [Option.map]
    rw [pickOutcomeOf_core, pickOutcomeOf_setResultApply]
    have hx : setResultApply (roundPicks db g gw) (pickOutcomeOf db gw) x
        = { x with result := some (pickOutcomeOf db gw p) } := by
      unfold setResultApply
      rw [hf]
    rw [hx]

theorem core_core_picks (db : DB) (g gw : Nat) :
    (processGameCore (processGameCore db g gw) g gw).picks
      = (processGameCore db g gw).picks := by
  rw [core_picks_map (processGameCore db g gw) g gw, core_picks_map db g gw,
    List.map_map]
  apply List.map_congr_left
  intro x _
  exact setResultApply_core_fix db g gw x

theorem processGameCore_teams (db : DB) (g gw : Nat) :
    (processGameCore db g gw).teams = db.teams :=
  foldlWrite_teams _ _

theorem elimFromPicks_core (db : DB) (g gw : Nat) :
    elimFromPicks (processGameCore db g gw) g gw = elimFromPicks db g gw := by
  unfold elimFromPicks
  rw [roundPicks_core, List.filterMap_map]
  apply List.filterMap_congr
  intro p _
  rw [Function.comp_apply, pickOutcomeOf_core, pickOutcomeOf_setResultApply]
  by_cases hwin : pickOutcomeOf db gw p = PickResult.win
  · rw [if_neg (fun hne => hne hwin), if_neg (fun hne => hne hwin)]
  · rw [if_pos hwin, if_pos hwin]
    simp [setResultApply_gamePlayerId, setResultApply_pickId]

theorem pickedIds_core (db : DB) (g gw : Nat) :
    (roundPicks (processGameCore db g gw) g gw).map (fun p => p.gamePlayerId)
      = (roundPicks db g gw).map (fun p => p.gamePlayerId) := by
  rw [roundPicks_core, List.map_map]
  exact List.map_congr_left (fun p _ => setResultApply_gamePlayerId _ _ p)

theorem mem_elimNoPick (db : DB) (g gw : Nat) (r : GamePlayer)
    (hr : r ∈ aliveRows db g)
    (hnp : r.playerId ∉ (roundPicks db g gw).map (fun p => p.gamePlayerId)) :
    (r.playerId, (none : Option Nat)) ∈ elimNoPick db g gw := by
  unfold elimNoPick
  rw [List.mem_filterMap]
  exact ⟨r, hr, by rw [if_neg hnp]⟩

theorem elimApply_skip (gw : Nat) (es : List (Nat × Option Nat)) (r : GamePlayer)
    (h : r.status = PlayerStatus.alive →
      es.find? (fun e => e.1 = r.playerId) = none) :
    elimApply gw es r = r := by
  unfold elimApply
  by_cases hal : r.status = PlayerStatus.alive
  · rw [if_pos hal, h hal]
  · rw [if_neg hal]

theorem remainingAlive_congr (db1 db2 : DB) (g : Nat)
    (h : db1.players = db2.players) :
    remainingAlive db1 g = remainingAlive db2 g := by
  unfold remainingAlive aliveRows
  rw [h]

theorem finishWrites_of_ge2 (db : DB) (g gw : Nat)
    (h : 2 ≤ remainingAlive (processPhase1 db g gw) g) :
    finishWrites db g gw = [] := by
  unfold finishWrites
  rw [if_neg (by omega), if_neg (by omega)]

theorem finishWrites_of_zero (db : DB) (g gw : Nat)
    (h : remainingAlive (processPhase1 db g gw) g = 0) :
    finishWrites db g gw
      = (elimEntries db g gw).map (fun e => DbWrite.promoteDrawn e.1)
        ++ [DbWrite.completeDrawn g] := by
  unfold finishWrites
  rw [if_neg (by omega), if_pos h]

/-- Re-running a committed pass that left the contest active (at least two
members still alive) changes nothing. -/
theorem core_idem_still_active (db : DB) (g gw : Nat)
    (hfin : finishWrites db g gw = [])
    (hrem : 2 ≤ remainingAlive (processPhase1 db g gw) g) :
    processGameCore (processGameCore db g gw) g gw = processGameCore db g gw := by
  have hcore_eq := processGameCore_active db g gw hfin
  have hdbp : (processGameCore db g gw).players
      = db.players.map (elimApply gw (elimEntries db g gw)) := by
    rw [hcore_eq, processPhase1_players]
  -- the no-pick side of the second pass is empty
  have hnp : elimNoPick (processGameCore db g gw) g gw = [] := by
    unfold elimNoPick
    rw [List.filterMap_eq_nil_iff]
    intro r2 hr2
    unfold aliveRows at hr2
    obtain ⟨hmem, hcond⟩ := List.mem_filter.mp hr2
    rw [hdbp, List.mem_map] at hmem
    obtain ⟨r0, hr0, rfl⟩ := hmem
    simp only [Bool.and_eq_true, decide_eq_true_eq] at hcond
    have h3 := (elimApply_alive gw (elimEntries db g gw) r0).mp hcond.2
    have hg0 : r0.gameId = g := by
      rw [elimApply_gameId] at hcond; exact hcond.1
    have hpin : r0.playerId ∈ (roundPicks db g gw).map (fun p => p.gamePlayerId) := by
      by_contra hcon
      have hmem2 : (r0.playerId, (none : Option Nat)) ∈ elimEntries db g gw := by
        unfold elimEntries
        exact List.mem_append_right _
          (mem_elimNoPick db g gw r0
            (List.mem_filter.mpr ⟨hr0, by simp [hg0, h3.1]⟩) hcon)
      have := List.find?_eq_none.mp h3.2 _ hmem2
      simp at this
    rw [if_pos ?_]
    rw [elimApply_playerId, pickedIds_core]
    exact hpin
  have hes2 : elimEntries (processGameCore db g gw) g gw = elimFromPicks db g gw := by
    unfold elimEntries
    rw [elimFromPicks_core, hnp, List.append_nil]
  -- the second pass's phase 1 does not move the member rows
  have hp1 : (processPhase1 (processGameCore db g gw) g gw).players
      = (processGameCore db g gw).players := by
    rw [processPhase1_players, hes2]
    refine (List.map_congr_left ?_).trans (List.map_id _)
    intro r2 hr2
    refine elimApply_skip gw _ r2 (fun hal => ?_)
    rw [hdbp, List.mem_map] at hr2
    obtain ⟨r0, hr0, rfl⟩ := hr2
    have h3 := (elimApply_alive gw (elimEntries db g gw) r0).mp hal
    rw [List.find?_eq_none]
    intro e he
    rw [elimApply_playerId]
    exact List.find?_eq_none.mp h3.2 e
      (by unfold elimEntries; exact List.mem_append_left _ he)
  have hrem2 : remainingAlive (processPhase1 (processGameCore db g gw) g gw) g
      = remainingAlive (processPhase1 db g gw) g :=
    (remainingAlive_congr _ _ g hp1).trans
      (remainingAlive_congr _ _ g (by rw [hcore_eq]))
  have hfin2 : finishWrites (processGameCore db g gw) g gw = [] :=
    finishWrites_of_ge2 _ g gw (by rw [hrem2]; exact hrem)
  have hfinal := processGameCore_active (processGameCore db g gw) g gw hfin2
  refine DB.ext ?_ ?_ ?_ ?_ ?_ ?_ ?_ ?_ ?_
  · exact processGameCore_teams _ g gw
  · exact processGameCore_fixtures _ g gw
  · rw [hfinal, processPhase1_games]
  · rw [hfinal, hp1]
  · exact core_core_picks db g gw
  · exact processGameCore_season _ g gw
  · exact (foldlWrite_settings _ _).2.1
  · exact (foldlWrite_settings _ _).2.2.1
  · exact (foldlWrite_settings _ _).2.2.2

theorem core_picks_of_empty (db : DB) (g gw : Nat)
    (hrp : roundPicks db g gw = []) :
    (processGameCore db g gw).picks = db.picks := by
  rw [core_picks_map, hrp]
  refine (List.map_congr_left ?_).trans (List.map_id _)
  intro x _
  rfl

theorem elimFromPicks_of_empty (db : DB) (g gw : Nat)
    (hrp : roundPicks db g gw = []) : elimFromPicks db g gw = [] := by
  unfold elimFromPicks
  rw [hrp]
  rfl

theorem elimEntries_of_empty (db : DB) (g gw : Nat)
    (hrp : roundPicks db g gw = []) :
    elimEntries db g gw = elimNoPick db g gw := by
  unfold elimEntries
  rw [elimFromPicks_of_empty db g gw hrp, List.nil_append]

/-- With no round picks, every alive member of the contest is scheduled for
elimination. -/
theorem sched_of_empty (db : DB) (g gw : Nat) (hrp : roundPicks db g gw = [])
    (r0 : GamePlayer) (hr0 : r0 ∈ db.players) (hg : r0.gameId = g)
    (hal : r0.status = PlayerStatus.alive) :
    (elimEntries db g gw).find? (fun e => e.1 = r0.playerId) ≠ none := by
  intro hnone
  have hmem : (r0.playerId, (none : Option Nat)) ∈ elimNoPick db g gw :=
    mem_elimNoPick db g gw r0 (List.mem_filter.mpr ⟨hr0, by simp [hg, hal]⟩)
      (by rw [hrp]; simp)
  have h2 := List.find?_eq_none.mp hnone _
    (by rw [elimEntries_of_empty db g gw hrp]; exact hmem)
  simp at h2

theorem aliveRows_phase1_empty (db : DB) (g gw : Nat)
    (hrp : roundPicks db g gw = []) :
    aliveRows (processPhase1 db g gw) g = [] := by
  unfold aliveRows
  rw [processPhase1_players, List.filter_eq_nil_iff]
  intro r2 hr2
  rw [List.mem_map] at hr2
  obtain ⟨r0, hr0, rfl⟩ := hr2
  simp only [Bool.and_eq_true, decide_eq_true_eq, not_and]
  intro hgid hal
  rw [elimApply_gameId] at hgid
  have h3 := (elimApply_alive gw (elimEntries db g gw) r0).mp hal
  exact sched_of_empty db g gw hrp r0 hr0 hgid h3.1 h3.2

/-- Re-running a committed pass on a round with no picks (which completed the
contest as drawn) changes nothing. -/
theorem core_idem_empty_picks (db : DB) (g gw : Nat)
    (hrp : roundPicks db g gw = []) :
    processGameCore (processGameCore db g gw) g gw = processGameCore db g gw := by
  have hrem0 : remainingAlive (processPhase1 db g gw) g = 0 := by
    unfold remainingAlive
    rw [aliveRows_phase1_empty db g gw hrp]
    rfl
  have hfin := finishWrites_of_zero db g gw hrem0
  have hcg := processGameCore_drawn db g gw hfin
  have hpicks : (processGameCore db g gw).picks = db.picks :=
    core_picks_of_empty db g gw hrp
  have hrp2 : roundPicks (processGameCore db g gw) g gw = [] := by
    unfold roundPicks
    rw [hpicks]
    exact hrp
  have hdbp : (processGameCore db g gw).players
      = db.players.map (drawnApply (elimEntries db g gw) ∘
          elimApply gw (elimEntries db g gw)) := by
    rw [hcg.2.1, processPhase1_players, List.map_map]
  have hal2 : aliveRows (processGameCore db g gw) g = [] := by
    unfold aliveRows
    rw [List.filter_eq_nil_iff]
    intro r2 hr2
    rw [hdbp, List.mem_map] at hr2
    obtain ⟨r0, hr0, rfl⟩ := hr2
    simp only [Bool.and_eq_true, decide_eq_true_eq, not_and]
    intro hgid hal
    rw [Function.comp_apply, drawnApply_gameId, elimApply_gameId] at hgid
    rw [Function.comp_apply] at hal
    have hal3 := drawnApply_alive _ _ hal
    have h3 := (elimApply_alive gw (elimEntries db g gw) r0).mp hal3
    exact sched_of_empty db g gw hrp r0 hr0 hgid h3.1 h3.2
  have hnp2 : elimNoPick (processGameCore db g gw) g gw = [] := by
    unfold elimNoPick
    rw [hal2]
    rfl
  have hes2 : elimEntries (processGameCore db g gw) g gw = [] := by
    unfold elimEntries
    rw [elimFromPicks_of_empty _ g gw hrp2, hnp2]
    rfl
  have hph2 : processPhase1 (processGameCore db g gw) g gw
      = processGameCore db g gw := by
    unfold processPhase1 resultWrites elimWrites
    rw [hrp2, hes2]
    rfl
  have hrem2 : remainingAlive (processPhase1 (processGameCore db g gw) g gw) g
      = 0 := by
    rw [hph2]
    unfold remainingAlive
    rw [hal2]
    rfl
  have hfin2 := finishWrites_of_zero _ g gw hrem2
  have hcg2 := processGameCore_drawn (processGameCore db g gw) g gw hfin2
  refine DB.ext ?_ ?_ ?_ ?_ ?_ ?_ ?_ ?_ ?_
  · exact processGameCore_teams _ g gw
  · exact processGameCore_fixtures _ g gw
  · rw [hcg2.2.2, hcg.2.2, List.map_map]
    refine List.map_congr_left ?_
    intro gm _
    by_cases hgm : gm.gameId = g
    · simp [Function.comp_apply, hgm]
    · simp [Function.comp_apply, hgm]
  · rw [hcg2.2.1, hph2, hes2]
    refine (List.map_congr_left ?_).trans (List.map_id _)
    intro r _
    rfl
  · exact core_core_picks db g gw
  · exact processGameCore_season _ g gw
  · exact (foldlWrite_settings _ _).2.1
  · exact (foldlWrite_settings _ _).2.2.1
  · exact (foldlWrite_settings _ _).2.2.2

/-- The poller's per-game body reports "already processed" and performs no
writes whenever any round pick already carries an outcome. -/
theorem pollerProcessGame_already (db : DB) (g gw : Nat)
    (h : (db.picks.any (fun p => p.gameId = g && p.gameweek = gw &&
      p.result.isSome)) = true) :
    pollerProcessGame db g gw = (PollRes.alreadyProcessed, db) := by
  unfold pollerProcessGame
  rw [if_pos h]

/-- Stored-state idempotence of the poller's per-game body. -/
theorem poller_idem (db : DB) (g gw : Nat) :
    (pollerProcessGame (pollerProcessGame db g gw).2 g gw).2
      = (pollerProcessGame db g gw).2 := by
  by_cases hany : (db.picks.any (fun p => p.gameId = g && p.gameweek = gw &&
      p.result.isSome)) = true
  · have h1 := pollerProcessGame_already db g gw hany
    rw [h1]
    show (pollerProcessGame db g gw).2 = db
    rw [h1]
  · have h1 : (pollerProcessGame db g gw).2 = processGameCore db g gw := by
      unfold pollerProcessGame
      rw [if_neg hany]
    rw [h1]
    by_cases hrp : roundPicks db g gw = []
    · have hany2 : ¬ ((processGameCore db g gw).picks.any
          (fun p => p.gameId = g && p.gameweek = gw && p.result.isSome)) = true := by
        rw [core_picks_of_empty db g gw hrp]
        exact hany
      have h2 : (pollerProcessGame (processGameCore db g gw) g gw).2
          = processGameCore (processGameCore db g gw) g gw := by
        unfold pollerProcessGame
        rw [if_neg hany2]
      rw [h2]
      exact core_idem_empty_picks db g gw hrp
    · obtain ⟨p0, hp0⟩ := List.exists_mem_of_ne_nil _ hrp
      have hp0db : p0 ∈ db.picks := List.mem_of_mem_filter hp0
      have hcond := (List.mem_filter.mp hp0).2
      simp only [Bool.and_eq_true, decide_eq_true_eq] at hcond
      have hFmem : setResultApply (roundPicks db g gw) (pickOutcomeOf db gw) p0
          ∈ (processGameCore db g gw).picks := by
        rw [core_picks_map]
        exact List.mem_map_of_mem _ hp0db
      have hg0 : (setResultApply (roundPicks db g gw)
          (pickOutcomeOf db gw) p0).gameId = g := by
        rw [setResultApply_gameId]
        exact hcond.1
      have hw0 : (setResultApply (roundPicks db g gw)
          (pickOutcomeOf db gw) p0).gameweek = gw := by
        rw [setResultApply_gameweek]
        exact hcond.2
      have hsome := processGameCore_outcomes db g gw _ hFmem hg0 hw0
      have hany2 : ((processGameCore db g gw).picks.any
          (fun p => p.gameId = g && p.gameweek = gw && p.result.isSome)) = true := by
        rw [List.any_eq_true]
        exact ⟨_, hFmem, by simp [hg0, hw0, hsome]⟩
      rw [pollerProcessGame_already _ g gw hany2]

/-- Stored-state idempotence of the admin processing route. -/
theorem admin_idem (db : DB) (g gw : Nat) :
    (processResultsAdmin (processResultsAdmin db g gw).2 g gw).2
      = (processResultsAdmin db g gw).2 := by
  cases hfind : db.games.find? (fun gm => gm.gameId = g) with
  | none =>
    have h1 : (processResultsAdmin db g gw).2 = db := by
      unfold processResultsAdmin
      rw [hfind]
    rw [h1]
    exact h1
  | some game =>
    by_cases hact : game.status ≠ GameStatus.active
    · have h1 : (processResultsAdmin db g gw).2 = db := by
        unfold processResultsAdmin
        rw [hfind]
        dsimp only
        rw [if_pos hact]
      rw [h1]
      exact h1
    · by_cases hun : unfinishedCount db gw ≠ 0
      · have h1 : (processResultsAdmin db g gw).2 = db := by
          unfold processResultsAdmin
          rw [hfind]
          dsimp only
          rw [if_neg hact, if_pos hun]
        rw [h1]
        exact h1
      · have h1 : (processResultsAdmin db g gw).2 = processGameCore db g gw := by
          unfold processResultsAdmin
          rw [hfind]
          dsimp only
          rw [if_neg hact, if_neg hun]
        rw [h1]
        have hgameId : game.gameId = g := by
          have := List.find?_some hfind
          simpa using this
        rcases finishWrites_cases db g gw with
          ⟨_, w, _, hfin⟩ | ⟨_, hfin⟩ | ⟨h2r, hfin⟩
        · have hgames := (processGameCore_winner db g gw w hfin).2.2
          have hfind2 : (processGameCore db g gw).games.find?
              (fun gm => gm.gameId = g)
              = some { game with status := GameStatus.completed,
                                 winnerPlayerId := some w.playerId } := by
            rw [hgames, List.find?_map,
              find?_congruence _ _ (fun gm => gm.gameId = g)
                (by intro a; by_cases ha : a.gameId = g <;> simp [ha]),
              hfind]
            dsimp only [Option.map]
            rw [if_pos hgameId]
          unfold processResultsAdmin
          rw [hfind2]
          dsimp only
          rw [if_pos (by simp)]
        · have hgames := (processGameCore_drawn db g gw hfin).2.2
          have hfind2 : (processGameCore db g gw).games.find?
              (fun gm => gm.gameId = g)
              = some { game with status := GameStatus.completed,
                                 isDraw := true } := by
            rw [hgames, List.find?_map,
              find?_congruence _ _ (fun gm => gm.gameId = g)
                (by intro a; by_cases ha : a.gameId = g <;> simp [ha]),
              hfind]
            dsimp only [Option.map]
            rw [if_pos hgameId]
          unfold processResultsAdmin
          rw [hfind2]
          dsimp only
          rw [if_pos (by simp)]
        · have hgames : (processGameCore db g gw).games = db.games := by
            rw [processGameCore_active db g gw hfin, processPhase1_games]
          unfold processResultsAdmin
          rw [hgames, hfind]
          dsimp only
          rw [if_neg hact, unfinishedCount_core, if_neg hun]
          exact core_idem_still_active db g gw hfin h2r

/-- Claim C1 (amended): the poller's per-game body reports "already
processed" and performs no writes whenever a round nomination already
carries a non-null outcome; the administrator endpoint has no such check and
re-runs the processing, but both invocation paths are idempotent on the
stored state — calling either twice in a row leaves the state after the
second call identical to the state after the first. -/
theorem C1_theorem :
    (∀ (db : DB) (g gw : Nat),
      (db.picks.any (fun p => p.gameId = g && p.gameweek = gw &&
        p.result.isSome)) = true →
      pollerProcessGame db g gw = (PollRes.alreadyProcessed, db)) ∧
    (∀ (db : DB) (g gw : Nat),
      (pollerProcessGame (pollerProcessGame db g gw).2 g gw).2
        = (pollerProcessGame db g gw).2) ∧
    (∀ (db : DB) (g gw : Nat),
      (processResultsAdmin (processResultsAdmin db g gw).2 g gw).2
        = (processResultsAdmin db g gw).2) :=
  ⟨pollerProcessGame_already, poller_idem, admin_idem⟩

/-- Claim C1, counterexample: on a round whose picks already carry non-null
outcomes, the administrator endpoint does not report "already processed" —
it re-runs the full processing and reports `processed` (its result type has
no already-processed outcome at all), while the poller path does report it. -/
theorem C1_counterexample :
    (exampleAlreadyProcessed.picks.any
      (fun p => p.gameId = 1 && p.gameweek = 1 && p.result.isSome)) = true ∧
    (processResultsAdmin exampleAlreadyProcessed 1 1).1
      = AdminRes.processed 0 2 GameStatus.active ∧
    (pollerProcessGame exampleAlreadyProcessed 1 1).1
      = PollRes.alreadyProcessed := by
  decide

/-- Claim C1, witness: the amended statement at the concrete
already-processed state. -/
theorem C1_witness :
    pollerProcessGame exampleAlreadyProcessed 1 1
      = (PollRes.alreadyProcessed, exampleAlreadyProcessed) ∧
    (pollerProcessGame (pollerProcessGame exampleAlreadyProcessed 1 1).2 1 1).2
      = (pollerProcessGame exampleAlreadyProcessed 1 1).2 ∧
    (processResultsAdmin
      (processResultsAdmin exampleAlreadyProcessed 1 1).2 1 1).2
      = (processResultsAdmin exampleAlreadyProcessed 1 1).2 :=
  ⟨C1_theorem.1 exampleAlreadyProcessed 1 1 (by decide),
   C1_theorem.2.1 exampleAlreadyProcessed 1 1,
   C1_theorem.2.2 exampleAlreadyProcessed 1 1⟩

end PremPicker
